import Mathlib

/-!
# Fuse_HITSZ: the `newfs` FUSE hooks and the `demo` mount hook

A shallow embedding of `fs/newfs/src/newfs.c` and `fs/demo/src/main.c`.

The C heap is an arena: a pointer to a `struct nfs_dentry` is an index into
`nfs_state.heap`, and `malloc` returns the next free index.  An inode is owned by
exactly one dentry, so the `struct nfs_inode` that `dentry->inode` points to is
stored in the slot of its dentry (`none` is the NULL pointer).  Dereferencing a
NULL or dangling pointer and dividing by zero have no defined result in C; the
hooks return `none` there.
-/

set_option autoImplicit false
set_option linter.unusedVariables false

/-- Conversion of an integer to the 32-bit C `int` (two's complement wrap). -/
def to_int32 (x : Int) : Int := (x + 2147483648) % 4294967296 - 2147483648

namespace Newfs

/-! ## Data model -/

/-- File kinds, the second argument of `new_dentry` in `newfs.c`. -/
inductive NFS_FILE_TYPE where
  | NFS_REG_FILE
  | NFS_DIR
  deriving DecidableEq, Repr

/-- Modelled from the spec: `struct nfs_inode` of the absent header `newfs.h`
(spec §3, Inode): the id taken from the inode bitmap, `type`, `size`,
`child_count` (`dir_cnt` in `newfs.c`), the child collection that
`nfs_alloc_dentry` and `nfs_get_dentry` receive through the inode pointer, and the
list of owned data blocks. -/
structure nfs_inode where
  ino : Nat
  ftype : NFS_FILE_TYPE
  size : Nat
  dir_cnt : Nat
  dentrys : List Nat
  data_blks : List Nat
  deriving DecidableEq, Repr

/-- Modelled from the spec: `struct nfs_dentry` of the absent header `newfs.h`
(spec §3, Dentry): name, the kind given to `new_dentry`, the parent
back-reference and the inode reference. -/
structure nfs_dentry where
  fname : String
  ftype : NFS_FILE_TYPE
  parent : Option Nat
  inode : Option nfs_inode
  deriving DecidableEq, Repr

/-- Modelled from the spec: `struct nfs_super` of the absent header `newfs.h`
(spec §3, Superblock and Allocation Bitmap): device geometry, `used_bytes`
(`sz_usage` in `newfs.c`), the inode bitmap (`true` is allocated) and the root
dentry. -/
structure nfs_super where
  sz_io : Nat
  sz_disk : Nat
  sz_usage : Nat
  map_inode : List Bool
  root_dentry : Nat
  deriving DecidableEq, Repr

/-- The mount-session state: the global `nfs_super` and the heap of dentries. -/
structure nfs_state where
  super : nfs_super
  heap : List nfs_dentry
  deriving DecidableEq, Repr

/-- Constants of the absent header `newfs.h` that `newfs.c` uses; they are
parameters of the embedding. -/
structure nfs_macros where
  NFS_ERROR_EXISTS : Int
  NFS_ERROR_NOTFOUND : Int
  NFS_ERROR_UNSUPPORTED : Int
  NFS_DEFAULT_PERM : Nat
  NFS_DATA_PER_FILE : Int
  sizeof_nfs_dentry_d : Nat
  deriving DecidableEq, Repr

/-- Modelled from the spec: the macro `NFS_ERROR_NONE` of the absent header
`newfs.h`; success is 0 (the return documentation of every hook in `newfs.c`). -/
def NFS_ERROR_NONE : Int := 0

/-- Modelled from the spec: the macro `NFS_IS_REG` of the absent header `newfs.h`
(spec §3: an inode's `type` is DIRECTORY or REGULAR). -/
def NFS_IS_REG (inode : nfs_inode) : Bool :=
  inode.ftype == NFS_FILE_TYPE.NFS_REG_FILE

/-- Modelled from the spec: the macro `NFS_IS_DIR` of the absent header `newfs.h`
(spec §3: an inode's `type` is DIRECTORY or REGULAR). -/
def NFS_IS_DIR (inode : nfs_inode) : Bool :=
  inode.ftype == NFS_FILE_TYPE.NFS_DIR

/-- Modelled from the spec: the macro `NFS_IO_SZ()` of the absent header
`newfs.h`, the device I/O size held by the superblock (spec §3). -/
def NFS_IO_SZ (s : nfs_state) : Nat := s.super.sz_io

/-- Modelled from the spec: the macro `NFS_DISK_SZ()` of the absent header
`newfs.h`, the disk size held by the superblock (spec §3). -/
def NFS_DISK_SZ (s : nfs_state) : Nat := s.super.sz_disk

/-- The POSIX file-type mask `S_IFMT` (octal 0170000). -/
def S_IFMT : Nat := 61440

/-- The POSIX regular-file type bits `S_IFREG` (octal 0100000). -/
def S_IFREG : Nat := 32768

/-- The POSIX directory type bits `S_IFDIR` (octal 0040000). -/
def S_IFDIR : Nat := 16384

/-- The POSIX macro `S_ISREG`. -/
def S_ISREG (mode : Nat) : Bool := (mode &&& S_IFMT) == S_IFREG

/-- The POSIX macro `S_ISDIR`. -/
def S_ISDIR (mode : Nat) : Bool := (mode &&& S_IFMT) == S_IFDIR

/-! ## Helpers of the absent `nfs_utils.c` -/

/-- The inode that `dentry->inode` points to: `none` when the dentry pointer
dangles or the inode pointer is NULL. -/
def inode_of (s : nfs_state) (dentry : Nat) : Option nfs_inode :=
  match s.heap[dentry]? with
  | none => none
  | some d => d.inode

/-- Splitting of a path on the separator, with the characters of the component
being read kept in reverse; empty components are dropped. -/
def split_path : List Char → List Char → List String
  | [], cur => if cur.isEmpty then [] else [String.mk cur.reverse]
  | c :: cs, cur =>
    if c = '/' then
      (if cur.isEmpty then split_path cs [] else String.mk cur.reverse :: split_path cs [])
    else split_path cs (c :: cur)

/-- Modelled from the spec: the path splitting inside the absent `nfs_lookup`
(spec §4.4: the path is split on its separator into an ordered sequence of name
components; the empty path and the separator alone have none). -/
def path_components (path : String) : List String :=
  split_path path.data []

/-- Modelled from the spec: the absent `nfs_get_fname` (spec §4.5 step 3: the
final path component is the new name). -/
def nfs_get_fname (path : String) : String :=
  (path_components path).getLast?.getD ""

/-- Exact-name search of a child collection: the first child pointer whose dentry
carries the name. -/
def find_child (s : nfs_state) (name : String) : List Nat → Option Nat
  | [] => none
  | p :: ps =>
    match s.heap[p]? with
    | some d => if d.fname = name then some p else find_child s name ps
    | none => find_child s name ps

/-- The child collection of a dentry: that of its inode, empty without one. -/
def children_of (s : nfs_state) (dentry : Nat) : List Nat :=
  match inode_of s dentry with
  | some inode => inode.dentrys
  | none => []

/-- The walk of `nfs_lookup` from a dentry along the remaining components: the
last matched dentry, and whether every component matched. -/
def lookup_walk (s : nfs_state) : Nat → List String → Nat × Bool
  | cur, [] => (cur, true)
  | cur, c :: rest =>
    match find_child s c (children_of s cur) with
    | none => (cur, false)
    | some next => lookup_walk s next rest

/-- Modelled from the spec: the absent `nfs_lookup` (spec §4.4).  The result is
`(dentry, is_find, is_root)`: without components the root, found; otherwise the
walk from the root, which stops at the last matched dentry (the root when nothing
matches) with `is_find = false` as soon as a component has no exact match in the
current child collection. -/
def nfs_lookup (path : String) (s : nfs_state) : Nat × Bool × Bool :=
  match path_components path with
  | [] => (s.super.root_dentry, true, true)
  | c :: rest =>
    let r := lookup_walk s s.super.root_dentry (c :: rest)
    (r.1, r.2, false)

/-- Modelled from the spec: the absent `new_dentry` (spec §4.5 step 5): a fresh
heap object with the name and kind given, no parent and no inode yet.  The result
is the new pointer and the new state. -/
def new_dentry (fname : String) (ftype : NFS_FILE_TYPE) (s : nfs_state) : Nat × nfs_state :=
  (s.heap.length,
   { s with heap := s.heap ++ [{ fname := fname, ftype := ftype, parent := none, inode := none }] })

/-- The assignment `dentry->parent = last_dentry` of `newfs.c`. -/
def set_parent (dentry last_dentry : Nat) (s : nfs_state) : nfs_state :=
  match s.heap[dentry]? with
  | none => s
  | some d => { s with heap := s.heap.set dentry { d with parent := some last_dentry } }

/-- First-fit search of a bitmap: the index of the first clear bit. -/
def first_clear : List Bool → Option Nat
  | [] => none
  | b :: bs => if b then (first_clear bs).map (· + 1) else some 0

/-- Modelled from the spec: the absent `nfs_alloc_inode` (spec §4.2 and §4.5
step 4): first-fit on the inode bitmap; when no bit is clear the allocation fails
and nothing changes; otherwise the bit is set and a record with `type` the kind of
the dentry, `size` 0, `child_count` 0, no children and no blocks is bound to the
dentry.  The result is the allocated id (`none` on exhaustion) and the new
state. -/
def nfs_alloc_inode (dentry : Nat) (s : nfs_state) : Option Nat × nfs_state :=
  match first_clear s.super.map_inode with
  | none => (none, s)
  | some ino =>
    match s.heap[dentry]? with
    | none => (none, s)
    | some d =>
      (some ino,
       { super := { s.super with map_inode := s.super.map_inode.set ino true },
         heap := s.heap.set dentry
           { d with inode := some { ino := ino, ftype := d.ftype, size := 0, dir_cnt := 0,
                                    dentrys := [], data_blks := [] } } })

/-- Modelled from the spec: the absent `nfs_alloc_dentry` (spec §4.5 step 5): the
dentry is appended to the child collection of the parent inode and the child count
is incremented.  The parent inode is addressed by its dentry; `none` when that
inode pointer is NULL or dangling. -/
def nfs_alloc_dentry (parent dentry : Nat) (s : nfs_state) : Option nfs_state :=
  match s.heap[parent]? with
  | none => none
  | some pd =>
    match pd.inode with
    | none => none
    | some pinode =>
      let pinode1 : nfs_inode :=
        { pinode with dentrys := pinode.dentrys ++ [dentry], dir_cnt := pinode.dir_cnt + 1 }
      let pd1 : nfs_dentry := { pd with inode := some pinode1 }
      some { s with heap := s.heap.set parent pd1 }

/-- Modelled from the spec: the absent `nfs_get_dentry` (spec §4.6): the child at
the zero-based position `dir` of the collection in insertion order, NULL outside
it. -/
def nfs_get_dentry (inode : nfs_inode) (dir : Int) : Option Nat :=
  if dir < 0 then none else inode.dentrys[dir.toNat]?

/-! ## The hooks of `newfs.c` -/

/-- The hook `newfs_mkdir` (`newfs.c`, lines 97-122).  The result is the returned
int and the state after the call. -/
def newfs_mkdir (K : nfs_macros) (path : String) (mode : Nat) (s : nfs_state) :
    Option (Int × nfs_state) :=
  let r := nfs_lookup path s
  let last_dentry := r.1
  let is_find := r.2.1
  if is_find then some (-K.NFS_ERROR_EXISTS, s)
  else
    match inode_of s last_dentry with
    | none => none
    | some pinode =>
      if NFS_IS_REG pinode then some (-K.NFS_ERROR_UNSUPPORTED, s)
      else
        let fname := nfs_get_fname path
        let nd := new_dentry fname NFS_FILE_TYPE.NFS_DIR s
        let dentry := nd.1
        let s1 := set_parent dentry last_dentry nd.2
        let s2 := (nfs_alloc_inode dentry s1).2
        match nfs_alloc_dentry last_dentry dentry s2 with
        | none => none
        | some s3 => some (NFS_ERROR_NONE, s3)

/-- The kind `newfs_mknod` passes to `new_dentry` for a mode (`newfs.c`, lines
232-238). -/
def mknod_kind (mode : Nat) : NFS_FILE_TYPE :=
  if S_ISREG mode then NFS_FILE_TYPE.NFS_REG_FILE
  else if S_ISDIR mode then NFS_FILE_TYPE.NFS_DIR
  else NFS_FILE_TYPE.NFS_REG_FILE

/-- The hook `newfs_mknod` (`newfs.c`, lines 216-244).  The result is the returned
int and the state after the call. -/
def newfs_mknod (K : nfs_macros) (path : String) (mode : Nat) (dev : Nat) (s : nfs_state) :
    Option (Int × nfs_state) :=
  let r := nfs_lookup path s
  let last_dentry := r.1
  let is_find := r.2.1
  if is_find == true then some (-K.NFS_ERROR_EXISTS, s)
  else
    let fname := nfs_get_fname path
    let nd := new_dentry fname (mknod_kind mode) s
    let dentry := nd.1
    let s1 := set_parent dentry last_dentry nd.2
    let s2 := (nfs_alloc_inode dentry s1).2
    match nfs_alloc_dentry last_dentry dentry s2 with
    | none => none
    | some s3 => some (NFS_ERROR_NONE, s3)

/-- The fields of the POSIX `struct stat` that `newfs_getattr` writes. -/
structure stat where
  st_mode : Nat
  st_size : Int
  st_nlink : Nat
  st_uid : Nat
  st_gid : Nat
  st_atime : Int
  st_mtime : Int
  st_blksize : Int
  st_blocks : Int
  deriving DecidableEq, Repr

/-- What the process environment answers to `getuid()`, `getgid()` and the two
calls of `time(NULL)` in `newfs_getattr`. -/
structure nfs_env where
  uid : Nat
  gid : Nat
  time1 : Int
  time2 : Int
  deriving DecidableEq, Repr

/-- The hook `newfs_getattr` (`newfs.c`, lines 131-165).  The result is the
returned int and the contents of `*nfs_stat` after the call.  `dir_cnt`, `size`
and `sz_usage` are C ints and `sizeof` is below 2^32, so neither the product nor
the stores into `st_size` wrap. -/
def newfs_getattr (K : nfs_macros) (env : nfs_env) (path : String) (nfs_stat : stat)
    (s : nfs_state) : Option (Int × stat) :=
  let r := nfs_lookup path s
  let dentry := r.1
  let is_find := r.2.1
  let is_root := r.2.2
  if !is_find then some (-K.NFS_ERROR_NOTFOUND, nfs_stat)
  else
    match inode_of s dentry with
    | none => none
    | some inode =>
      let st1 : stat :=
        if NFS_IS_DIR inode then
          { nfs_stat with st_mode := S_IFDIR ||| K.NFS_DEFAULT_PERM,
                          st_size := ((inode.dir_cnt * K.sizeof_nfs_dentry_d : Nat) : Int) }
        else if NFS_IS_REG inode then
          { nfs_stat with st_mode := S_IFREG ||| K.NFS_DEFAULT_PERM,
                          st_size := (inode.size : Int) }
        else nfs_stat
      let st2 : stat :=
        { st1 with st_nlink := 1, st_uid := env.uid, st_gid := env.gid,
                   st_atime := env.time1, st_mtime := env.time2,
                   st_blksize := (NFS_IO_SZ s : Int), st_blocks := K.NFS_DATA_PER_FILE }
      if is_root then
        if NFS_IO_SZ s = 0 then none
        else
          some (NFS_ERROR_NONE,
            { st2 with st_size := (s.super.sz_usage : Int),
                       st_blocks := ((NFS_DISK_SZ s / NFS_IO_SZ s : Nat) : Int),
                       st_nlink := 2 })
      else some (NFS_ERROR_NONE, st2)

/-- The hook `newfs_readdir` (`newfs.c`, lines 185-206).  `offset` is the
`off_t` argument; the result is the returned int and what `filler` received: the
name and the next offset, or nothing when `filler` was not called.  The increment
`++offset` is reached only when `cur_dir` is a position of the collection, where
it cannot overflow `off_t`. -/
def newfs_readdir (K : nfs_macros) (path : String) (offset : Int) (s : nfs_state) :
    Option (Int × Option (String × Int)) :=
  let cur_dir := to_int32 offset
  let r := nfs_lookup path s
  let dentry := r.1
  let is_find := r.2.1
  if is_find then
    match inode_of s dentry with
    | none => none
    | some inode =>
      match nfs_get_dentry inode cur_dir with
      | none => some (NFS_ERROR_NONE, none)
      | some sub_dentry =>
        match s.heap[sub_dentry]? with
        | none => none
        | some sd => some (NFS_ERROR_NONE, some (sd.fname, offset + 1))
  else some (-K.NFS_ERROR_NOTFOUND, none)

/-- The hook `newfs_utimens` (`newfs.c`, lines 253-256). -/
def newfs_utimens (path : String) (tv : Int × Int) : Int := 0

/-- The function `newfs_write` (`newfs.c`, lines 272-276): `size` is a `size_t`,
returned as an `int`. -/
def newfs_write (path buf : String) (size : Nat) (offset : Int) : Int :=
  to_int32 (size : Int)

/-- The function `newfs_read` (`newfs.c`, lines 288-292): `size` is a `size_t`,
returned as an `int`. -/
def newfs_read (path buf : String) (size : Nat) (offset : Int) : Int :=
  to_int32 (size : Int)

/-- The function `newfs_unlink` (`newfs.c`, lines 300-303). -/
def newfs_unlink (path : String) : Int := 0

/-- The function `newfs_rmdir` (`newfs.c`, lines 317-320). -/
def newfs_rmdir (path : String) : Int := 0

/-- The function `newfs_rename` (`newfs.c`, lines 329-332). -/
def newfs_rename (src dst : String) : Int := 0

/-- The function `newfs_open` (`newfs.c`, lines 342-345). -/
def newfs_open (path : String) (fi : Nat) : Int := 0

/-- The function `newfs_opendir` (`newfs.c`, lines 354-357). -/
def newfs_opendir (path : String) (fi : Nat) : Int := 0

/-- The function `newfs_truncate` (`newfs.c`, lines 366-369). -/
def newfs_truncate (path : String) (offset : Int) : Int := 0

/-- The function `newfs_access` (`newfs.c`, lines 383-386). -/
def newfs_access (path : String) (type : Int) : Int := 0

/-- The slots of `struct fuse_operations` that `newfs.c` initialises. -/
inductive fuse_slot where
  | slot_init | slot_destroy | slot_mkdir | slot_getattr | slot_readdir | slot_mknod
  | slot_write | slot_read | slot_utimens | slot_truncate | slot_unlink | slot_rmdir
  | slot_rename | slot_open | slot_opendir | slot_access
  deriving DecidableEq, Repr

/-- The functions of `newfs.c` a slot can point to. -/
inductive nfs_hook where
  | fn_newfs_init | fn_newfs_destroy | fn_newfs_mkdir | fn_newfs_getattr
  | fn_newfs_readdir | fn_newfs_mknod | fn_newfs_utimens | fn_newfs_write
  | fn_newfs_read | fn_newfs_truncate | fn_newfs_unlink | fn_newfs_rmdir
  | fn_newfs_rename | fn_newfs_open | fn_newfs_opendir | fn_newfs_access
  deriving DecidableEq, Repr

/-- The table `operations` (`newfs.c`, lines 24-42): `none` is a NULL slot. -/
def operations : fuse_slot → Option nfs_hook
  | .slot_init => some .fn_newfs_init
  | .slot_destroy => some .fn_newfs_destroy
  | .slot_mkdir => some .fn_newfs_mkdir
  | .slot_getattr => some .fn_newfs_getattr
  | .slot_readdir => some .fn_newfs_readdir
  | .slot_mknod => some .fn_newfs_mknod
  | .slot_write => none
  | .slot_read => none
  | .slot_utimens => some .fn_newfs_utimens
  | .slot_truncate => none
  | .slot_unlink => none
  | .slot_rmdir => none
  | .slot_rename => none
  | .slot_open => none
  | .slot_opendir => none
  | .slot_access => none

/-! ## Reference definitions and state predicates used by the theorems -/

/-- The file kind a `st_mode` reports. -/
def stat_type (st_mode : Nat) : Option NFS_FILE_TYPE :=
  if S_ISDIR st_mode then some NFS_FILE_TYPE.NFS_DIR
  else if S_ISREG st_mode then some NFS_FILE_TYPE.NFS_REG_FILE
  else none

/-- The attributes the reference definition of `getattr` reports. -/
structure attr where
  ftype : NFS_FILE_TYPE
  size : Int
  nlink : Nat
  deriving DecidableEq, Repr

/-- The reference definition of `getattr`, written from the specification (§4.6)
over what lookup returned and the inode of the resolved dentry: `none` is the
not-found error, reported exactly when lookup reports not found; otherwise a
non-root directory has size `child_count × dentry_record_size`, a non-root regular
file its stored size, every non-root entry link count 1, and the root has size
`used_bytes` and link count 2. -/
def getattr_spec (dentry_record_size used_bytes : Nat) (found is_root : Bool)
    (inode : nfs_inode) : Option attr :=
  if found = false then none
  else if is_root then some { ftype := inode.ftype, size := (used_bytes : Int), nlink := 2 }
  else
    match inode.ftype with
    | NFS_FILE_TYPE.NFS_DIR =>
      some { ftype := NFS_FILE_TYPE.NFS_DIR,
             size := ((inode.dir_cnt * dentry_record_size : Nat) : Int), nlink := 1 }
    | NFS_FILE_TYPE.NFS_REG_FILE =>
      some { ftype := NFS_FILE_TYPE.NFS_REG_FILE, size := (inode.size : Int), nlink := 1 }

/-- The names of the children in a collection, in collection order. -/
def child_names (s : nfs_state) (ps : List Nat) : List String :=
  ps.filterMap (fun p => (s.heap[p]?).map (fun d => d.fname))

/-- The child collection stored with a dentry. -/
def dentry_children (d : nfs_dentry) : List Nat :=
  match d.inode with
  | some inode => inode.dentrys
  | none => []

/-- Name uniqueness: in every child collection of the session no two children
carry the same name. -/
def sibling_names_unique (s : nfs_state) : Prop :=
  ∀ d ∈ s.heap, (child_names s (dentry_children d)).Nodup

/-- Every pointer of the session, the root pointer and every child pointer, points
into the heap. -/
def heap_closed (s : nfs_state) : Prop :=
  s.super.root_dentry < s.heap.length ∧
  ∀ d ∈ s.heap, ∀ p ∈ dentry_children d, p < s.heap.length

instance (s : nfs_state) : Decidable (sibling_names_unique s) := by
  unfold sibling_names_unique; infer_instance

instance (s : nfs_state) : Decidable (heap_closed s) := by
  unfold heap_closed; infer_instance

/-- The dentry the create steps of `newfs_mkdir` and `newfs_mknod` build: named
`fname`, of kind `kind`, with parent `last_dentry`, bound to a fresh inode of id
`ino` when the allocation gave one. -/
def created_dentry (fname : String) (kind : NFS_FILE_TYPE) (last_dentry : Nat)
    (ino : Option Nat) : nfs_dentry :=
  { fname := fname, ftype := kind, parent := some last_dentry,
    inode := ino.map (fun i =>
      { ino := i, ftype := kind, size := 0, dir_cnt := 0, dentrys := [], data_blks := [] }) }

/-- The parent dentry after `nfs_alloc_dentry` appended the child `dentry`. -/
def parent_after (pd : nfs_dentry) (pinode : nfs_inode) (dentry : Nat) : nfs_dentry :=
  { pd with inode := some { pinode with dentrys := pinode.dentrys ++ [dentry],
                                        dir_cnt := pinode.dir_cnt + 1 } }

/-- The inode bitmap after the allocation attempt of a create. -/
def bitmap_after (map_inode : List Bool) : List Bool :=
  match first_clear map_inode with
  | some ino => map_inode.set ino true
  | none => map_inode

/-- The state the create steps leave: one dentry appended to the heap, the parent
slot updated, the bitmap after the allocation attempt. -/
def create_state (s : nfs_state) (last_dentry : Nat) (pd : nfs_dentry) (pinode : nfs_inode)
    (fname : String) (kind : NFS_FILE_TYPE) : nfs_state :=
  { super := { s.super with map_inode := bitmap_after s.super.map_inode },
    heap := (s.heap ++ [created_dentry fname kind last_dentry (first_clear s.super.map_inode)]).set
      last_dentry (parent_after pd pinode s.heap.length) }

/-- What a create leaves behind, from the state `s` before to the state `t`
after: exactly one dentry is added to the heap, named `fname`, of kind `kind`,
with parent `last_dentry`, bound to a fresh inode of id `ino` when the allocation
gave one; the parent slot differs only by the new child appended to its collection
and the incremented child count; every other dentry is untouched; the bitmap has
the allocated bit set. -/
def create_post (s t : nfs_state) (last_dentry : Nat) (pd : nfs_dentry) (pinode : nfs_inode)
    (fname : String) (kind : NFS_FILE_TYPE) (ino : Option Nat) : Prop :=
  t.heap.length = s.heap.length + 1 ∧
  t.heap[s.heap.length]? = some
    { fname := fname, ftype := kind, parent := some last_dentry,
      inode := ino.map (fun i =>
        { ino := i, ftype := kind, size := 0, dir_cnt := 0, dentrys := [], data_blks := [] }) } ∧
  t.heap[last_dentry]? = some
    { pd with inode := some { pinode with dentrys := pinode.dentrys ++ [s.heap.length],
                                          dir_cnt := pinode.dir_cnt + 1 } } ∧
  (∀ q, q ≠ last_dentry → q < s.heap.length → t.heap[q]? = s.heap[q]?) ∧
  t.super.map_inode = (match ino with
    | some i => s.super.map_inode.set i true
    | none => s.super.map_inode) ∧
  t.super.root_dentry = s.super.root_dentry

/-- A sample set of header constants: the errno values EEXIST, ENOENT and ENXIO,
permission bits 0777, 6 blocks per file, a 136-byte dentry record. -/
def errno_macros : nfs_macros :=
  { NFS_ERROR_EXISTS := 17, NFS_ERROR_NOTFOUND := 2, NFS_ERROR_UNSUPPORTED := 6,
    NFS_DEFAULT_PERM := 511, NFS_DATA_PER_FILE := 6, sizeof_nfs_dentry_d := 136 }

/-- A directory dentry bound to inode `ino` with the children `kids`. -/
def dir_dentry (fname : String) (parent : Option Nat) (ino : Nat) (kids : List Nat) :
    nfs_dentry :=
  { fname := fname, ftype := NFS_FILE_TYPE.NFS_DIR, parent := parent,
    inode := some { ino := ino, ftype := NFS_FILE_TYPE.NFS_DIR, size := 0,
                    dir_cnt := kids.length, dentrys := kids, data_blks := [] } }

/-- A regular-file dentry bound to inode `ino` of stored size `size`. -/
def reg_dentry (fname : String) (parent : Option Nat) (ino : Nat) (size : Nat) : nfs_dentry :=
  { fname := fname, ftype := NFS_FILE_TYPE.NFS_REG_FILE, parent := parent,
    inode := some { ino := ino, ftype := NFS_FILE_TYPE.NFS_REG_FILE, size := size,
                    dir_cnt := 0, dentrys := [], data_blks := [] } }

/-- The superblock of the samples: I/O size 512, disk size 4096 × 512. -/
def sample_super (used : Nat) (map_inode : List Bool) : nfs_super :=
  { sz_io := 512, sz_disk := 2097152, sz_usage := used, map_inode := map_inode,
    root_dentry := 0 }

/-- A freshly mounted session: only the root directory, three free inode ids. -/
def fresh_state : nfs_state :=
  { super := sample_super 1024 [true, false, false, false],
    heap := [dir_dentry "/" none 0 []] }

/-- A session whose root holds the regular file `f`. -/
def state_with_file : nfs_state :=
  { super := sample_super 1024 [true, true, false, false],
    heap := [dir_dentry "/" none 0 [1], reg_dentry "f" (some 0) 1 7] }

/-- A session whose root holds the directory `b`. -/
def state_with_b : nfs_state :=
  { super := sample_super 1024 [true, true, false, false],
    heap := [dir_dentry "/" none 0 [1], dir_dentry "b" (some 0) 1 []] }

/-- A session whose inode bitmap has no clear bit. -/
def state_full_bitmap : nfs_state :=
  { super := sample_super 1024 [true],
    heap := [dir_dentry "/" none 0 []] }

/-- A session with the directory `/a`, the directory `/a/b` and two files in it. -/
def state_listing : nfs_state :=
  { super := sample_super 1024 [true, true, true, true, true, false],
    heap := [dir_dentry "/" none 0 [1], dir_dentry "a" (some 0) 1 [2],
             dir_dentry "b" (some 1) 2 [3, 4], reg_dentry "f0" (some 2) 3 0,
             reg_dentry "f1" (some 2) 4 0] }

/-- The session `newfs_mkdir("/a")` leaves when the inode bitmap has no clear bit:
the root holds the child `a`, a dentry bound to no inode. -/
def state_unbound_child : nfs_state :=
  { super := sample_super 1024 [true],
    heap := [dir_dentry "/" none 0 [1],
             { fname := "a", ftype := NFS_FILE_TYPE.NFS_DIR, parent := some 0, inode := none }] }

/-- A session whose superblock holds the I/O size 0. -/
def state_zero_io : nfs_state :=
  { super := { sz_io := 0, sz_disk := 2097152, sz_usage := 1024,
               map_inode := [true, false], root_dentry := 0 },
    heap := [dir_dentry "/" none 0 []] }

/-- A sample process environment. -/
def sample_env : nfs_env := { uid := 1000, gid := 1000, time1 := 1700000000, time2 := 1700000000 }

/-- A zeroed `struct stat`. -/
def zero_stat : stat :=
  { st_mode := 0, st_size := 0, st_nlink := 0, st_uid := 0, st_gid := 0, st_atime := 0,
    st_mtime := 0, st_blksize := 0, st_blocks := 0 }

end Newfs

namespace Demo

/-- The superblock `struct demo_super` (`main.c`, lines 17-24). -/
structure demo_super where
  driver_fd : Int
  sz_io : Int
  sz_disk : Int
  sz_blks : Int
  deriving DecidableEq, Repr

/-- The external device driver as `demo_mount` sees it: the descriptor
`ddriver_open` returns, and the answer to each geometry query, where `none` is a
failing `ddriver_ioctl` (it returns -1) and `some v` one that stores `v` through
its result pointer and does not return -1. -/
structure ddriver where
  open_fd : Int
  io_sz : Option Int
  disk_sz : Option Int
  deriving DecidableEq, Repr

/-- The calls `demo_mount` makes to the device driver. -/
inductive ddriver_call where
  | call_open
  | call_ioctl_io_sz (fd : Int)
  | call_ioctl_size (fd : Int)
  | call_close (fd : Int)
  deriving DecidableEq, Repr

/-- The hook `demo_mount` (`main.c`, lines 37-73).  The result is the returned
pointer as an integer (`(void*)-1` is -1), the global `super` after the call and
the driver calls in the order made. -/
def demo_mount (dev : ddriver) (super : demo_super) : Int × demo_super × List ddriver_call :=
  let super1 : demo_super := { super with driver_fd := dev.open_fd }
  match dev.io_sz with
  | none =>
    (-1, super1,
      [ddriver_call.call_open, ddriver_call.call_ioctl_io_sz super1.driver_fd,
       ddriver_call.call_close super1.driver_fd])
  | some io =>
    let super2 : demo_super := { super1 with sz_io := io }
    match dev.disk_sz with
    | none =>
      (-1, super2,
        [ddriver_call.call_open, ddriver_call.call_ioctl_io_sz super2.driver_fd,
         ddriver_call.call_ioctl_size super2.driver_fd,
         ddriver_call.call_close super2.driver_fd])
    | some disk =>
      let super3 : demo_super := { super2 with sz_disk := disk }
      let super4 : demo_super := { super3 with sz_blks := to_int32 (2 * super3.sz_io) }
      (0, super4,
        [ddriver_call.call_open, ddriver_call.call_ioctl_io_sz super4.driver_fd,
         ddriver_call.call_ioctl_size super4.driver_fd])

/-- A device with I/O size 512 and disk size 4096 × 512, opened as descriptor 3. -/
def sample_ddriver : ddriver := { open_fd := 3, io_sz := some 512, disk_sz := some 2097152 }

/-- A device that reports an I/O size of 2^30 bytes. -/
def huge_io_ddriver : ddriver :=
  { open_fd := 3, io_sz := some 1073741824, disk_sz := some 2097152 }

/-- A zeroed superblock. -/
def zero_super : demo_super := { driver_fd := 0, sz_io := 0, sz_disk := 0, sz_blks := 0 }

end Demo

namespace Newfs

/-! ## Lemmas on the heap and on lookup -/

theorem heap_lt_of_get {s : nfs_state} {p : Nat} {d : nfs_dentry} (h : s.heap[p]? = some d) :
    p < s.heap.length := by
  rcases List.getElem?_eq_some.mp h with ⟨hlt, _⟩
  exact hlt

theorem set_concat_length {α : Type} (l : List α) (a b : α) :
    (l ++ [a]).set l.length b = l ++ [b] := by
  induction l with
  | nil => rfl
  | cons x xs ih => simp [List.set, ih]

theorem create_steps (s : nfs_state) (last : Nat) (pd : nfs_dentry) (pinode : nfs_inode)
    (fname : String) (kind : NFS_FILE_TYPE)
    (hget : s.heap[last]? = some pd) (hin : pd.inode = some pinode) :
    nfs_alloc_dentry last (new_dentry fname kind s).1
      (nfs_alloc_inode (new_dentry fname kind s).1
        (set_parent (new_dentry fname kind s).1 last (new_dentry fname kind s).2)).2
      = some (create_state s last pd pinode fname kind) := by
  have hlt : last < s.heap.length := heap_lt_of_get hget
  have hget1 : ∀ x : nfs_dentry, (s.heap ++ [x])[last]? = some pd := by
    intro x
    rw [List.getElem?_append_left hlt]
    exact hget
  simp only [new_dentry, set_parent, List.getElem?_concat_length]
  simp only [nfs_alloc_inode]
  cases hfc : first_clear s.super.map_inode with
  | none =>
    simp only [nfs_alloc_dentry, set_concat_length, hget1, hin, create_state, created_dentry,
      parent_after, bitmap_after, hfc, Option.map_none']
  | some ino =>
    simp only [nfs_alloc_dentry, set_concat_length, hget1, hin, create_state, created_dentry,
      parent_after, bitmap_after, hfc, Option.map_some', List.getElem?_concat_length]

theorem inode_of_eq {s : nfs_state} {p : Nat} {d : nfs_dentry} (h : s.heap[p]? = some d) :
    inode_of s p = d.inode := by
  simp only [inode_of, h]

theorem inode_of_some {s : nfs_state} {p : Nat} {inode : nfs_inode}
    (h : inode_of s p = some inode) : ∃ d, s.heap[p]? = some d ∧ d.inode = some inode := by
  unfold inode_of at h
  cases hd : s.heap[p]? with
  | none => rw [hd] at h; cases h
  | some d => rw [hd] at h; exact ⟨d, rfl, h⟩

theorem newfs_mkdir_create (K : nfs_macros) (path : String) (mode : Nat) (s : nfs_state)
    (pd : nfs_dentry) (pinode : nfs_inode)
    (hnf : (nfs_lookup path s).2.1 = false)
    (hget : s.heap[(nfs_lookup path s).1]? = some pd) (hin : pd.inode = some pinode)
    (hreg : NFS_IS_REG pinode = false) :
    newfs_mkdir K path mode s = some (NFS_ERROR_NONE,
      create_state s (nfs_lookup path s).1 pd pinode (nfs_get_fname path)
        NFS_FILE_TYPE.NFS_DIR) := by
  have hio : inode_of s (nfs_lookup path s).1 = some pinode := by
    rw [inode_of_eq hget]; exact hin
  simp only [newfs_mkdir, hnf, hio, hreg, create_steps s _ pd pinode _ _ hget hin]
  simp

theorem newfs_mknod_create (K : nfs_macros) (path : String) (mode dev : Nat) (s : nfs_state)
    (pd : nfs_dentry) (pinode : nfs_inode)
    (hnf : (nfs_lookup path s).2.1 = false)
    (hget : s.heap[(nfs_lookup path s).1]? = some pd) (hin : pd.inode = some pinode) :
    newfs_mknod K path mode dev s = some (NFS_ERROR_NONE,
      create_state s (nfs_lookup path s).1 pd pinode (nfs_get_fname path)
        (mknod_kind mode)) := by
  simp only [newfs_mknod, hnf, create_steps s _ pd pinode _ _ hget hin]
  simp

theorem create_state_length (s : nfs_state) (last : Nat) (pd : nfs_dentry) (pinode : nfs_inode)
    (fname : String) (kind : NFS_FILE_TYPE) :
    (create_state s last pd pinode fname kind).heap.length = s.heap.length + 1 := by
  simp [create_state]

theorem create_state_new (s : nfs_state) (last : Nat) (pd : nfs_dentry) (pinode : nfs_inode)
    (fname : String) (kind : NFS_FILE_TYPE) (hlt : last < s.heap.length) :
    (create_state s last pd pinode fname kind).heap[s.heap.length]?
      = some (created_dentry fname kind last (first_clear s.super.map_inode)) := by
  simp only [create_state]
  rw [List.getElem?_set_ne (Nat.ne_of_lt hlt), List.getElem?_concat_length]

theorem create_state_parent (s : nfs_state) (last : Nat) (pd : nfs_dentry) (pinode : nfs_inode)
    (fname : String) (kind : NFS_FILE_TYPE) (hlt : last < s.heap.length) :
    (create_state s last pd pinode fname kind).heap[last]?
      = some (parent_after pd pinode s.heap.length) := by
  simp only [create_state]
  rw [List.getElem?_set_self]
  simp only [List.length_append, List.length_singleton]
  omega

theorem create_state_other (s : nfs_state) (last : Nat) (pd : nfs_dentry) (pinode : nfs_inode)
    (fname : String) (kind : NFS_FILE_TYPE) (q : Nat) (hq : q ≠ last) (hlt : q < s.heap.length) :
    (create_state s last pd pinode fname kind).heap[q]? = s.heap[q]? := by
  simp only [create_state]
  rw [List.getElem?_set_ne (Ne.symm hq), List.getElem?_append_left hlt]

end Newfs

namespace Newfs

/-! ## Lemmas on name search -/

theorem find_child_congr (s t : nfs_state) (c : String) (ps : List Nat)
    (h : ∀ p ∈ ps, (t.heap[p]?).map (fun d => d.fname) = (s.heap[p]?).map (fun d => d.fname)) :
    find_child t c ps = find_child s c ps := by
  induction ps with
  | nil => rfl
  | cons p ps ih =>
    have hp := h p (List.mem_cons_self p ps)
    have ih1 := ih (fun q hq => h q (List.mem_cons_of_mem p hq))
    simp only [find_child]
    cases hs : s.heap[p]? with
    | none =>
      rw [hs] at hp
      cases ht : t.heap[p]? with
      | none => simpa using ih1
      | some d => rw [ht] at hp; simp at hp
    | some d =>
      rw [hs] at hp
      cases ht : t.heap[p]? with
      | none => rw [ht] at hp; simp at hp
      | some e =>
        rw [ht] at hp
        simp only [Option.map_some', Option.some.injEq] at hp
        simp only [hp, ih1]

theorem child_names_congr (s t : nfs_state) (ps : List Nat)
    (h : ∀ p ∈ ps, (t.heap[p]?).map (fun d => d.fname) = (s.heap[p]?).map (fun d => d.fname)) :
    child_names t ps = child_names s ps := by
  unfold child_names
  apply List.filterMap_congr
  exact h

theorem find_child_none_iff (s : nfs_state) (c : String) (ps : List Nat) :
    find_child s c ps = none ↔ c ∉ child_names s ps := by
  induction ps with
  | nil => simp [find_child, child_names]
  | cons p ps ih =>
    simp only [find_child]
    cases hs : s.heap[p]? with
    | none =>
      have : child_names s (p :: ps) = child_names s ps := by
        simp [child_names, List.filterMap_cons, hs]
      simpa [this] using ih
    | some d =>
      have : child_names s (p :: ps) = d.fname :: child_names s ps := by
        simp [child_names, List.filterMap_cons, hs]
      rw [this]
      by_cases hn : d.fname = c
      · simp [hn]
      · simp only [hn, if_false, List.mem_cons, not_or]
        constructor
        · intro h1; exact ⟨fun h2 => hn h2.symm, ih.mp h1⟩
        · intro h1; exact ih.mpr h1.2

theorem find_child_some_get (s : nfs_state) (c : String) (ps : List Nat) (n : Nat)
    (h : find_child s c ps = some n) : n ∈ ps ∧ ∃ d, s.heap[n]? = some d ∧ d.fname = c := by
  induction ps with
  | nil => simp [find_child] at h
  | cons p ps ih =>
    simp only [find_child] at h
    cases hs : s.heap[p]? with
    | none =>
      rw [hs] at h
      have := ih h
      exact ⟨List.mem_cons_of_mem p this.1, this.2⟩
    | some d =>
      rw [hs] at h
      by_cases hn : d.fname = c
      · simp only [hn, if_true, Option.some.injEq] at h
        subst h
        exact ⟨List.mem_cons_self _ _, d, hs, hn⟩
      · simp only [hn, if_false] at h
        have := ih h
        exact ⟨List.mem_cons_of_mem p this.1, this.2⟩

theorem find_child_append (s : nfs_state) (c : String) (ps qs : List Nat) :
    find_child s c (ps ++ qs) = (find_child s c ps).or (find_child s c qs) := by
  induction ps with
  | nil => simp [find_child]
  | cons p ps ih =>
    simp only [List.cons_append, find_child]
    cases hs : s.heap[p]? with
    | none => simpa using ih
    | some d =>
      by_cases hn : d.fname = c
      · simp [hn]
      · simpa [hn] using ih

theorem lookup_walk_append (s : nfs_state) (cs : List String) (c : String) (cur : Nat) :
    lookup_walk s cur (cs ++ [c]) =
      if (lookup_walk s cur cs).2 = true then
        (match find_child s c (children_of s (lookup_walk s cur cs).1) with
         | none => ((lookup_walk s cur cs).1, false)
         | some next => (next, true))
      else ((lookup_walk s cur cs).1, false) := by
  induction cs generalizing cur with
  | nil =>
    simp only [List.nil_append, lookup_walk]
    cases find_child s c (children_of s cur) <;> simp [lookup_walk]
  | cons d ds ih =>
    simp only [List.cons_append, lookup_walk]
    cases find_child s d (children_of s cur) with
    | none => simp
    | some next => simpa using ih next

end Newfs

namespace Newfs

/-! ## The state after a create -/

theorem children_of_eq {s : nfs_state} {p : Nat} {d : nfs_dentry} (h : s.heap[p]? = some d) :
    children_of s p = dentry_children d := by
  simp only [children_of, inode_of, h, dentry_children]

theorem children_of_none {s : nfs_state} {p : Nat} (h : s.heap[p]? = none) :
    children_of s p = [] := by
  simp only [children_of, inode_of, h]

theorem children_lt {s : nfs_state} (hc : heap_closed s) {cur p : Nat}
    (hp : p ∈ children_of s cur) : p < s.heap.length := by
  cases hd : s.heap[cur]? with
  | none => rw [children_of_none hd] at hp; cases hp
  | some d =>
    rw [children_of_eq hd] at hp
    exact hc.2 d (List.getElem?_mem hd) p hp

theorem create_state_name (s : nfs_state) (last : Nat) (pd : nfs_dentry) (pinode : nfs_inode)
    (fname : String) (kind : NFS_FILE_TYPE) (hget : s.heap[last]? = some pd)
    (p : Nat) (hp : p < s.heap.length) :
    ((create_state s last pd pinode fname kind).heap[p]?).map (fun d => d.fname)
      = (s.heap[p]?).map (fun d => d.fname) := by
  by_cases hpl : p = last
  · subst hpl
    rw [create_state_parent s p pd pinode fname kind hp, hget]
    rfl
  · rw [create_state_other s last pd pinode fname kind p hpl hp]

theorem create_state_children_parent (s : nfs_state) (last : Nat) (pd : nfs_dentry)
    (pinode : nfs_inode) (fname : String) (kind : NFS_FILE_TYPE)
    (hget : s.heap[last]? = some pd) (hin : pd.inode = some pinode) :
    children_of (create_state s last pd pinode fname kind) last
      = children_of s last ++ [s.heap.length] := by
  rw [children_of_eq (create_state_parent s last pd pinode fname kind (heap_lt_of_get hget)),
    children_of_eq hget]
  simp only [dentry_children, parent_after, hin]

theorem create_state_children_other (s : nfs_state) (last : Nat) (pd : nfs_dentry)
    (pinode : nfs_inode) (fname : String) (kind : NFS_FILE_TYPE)
    (q : Nat) (hq : q ≠ last) (hlt : q < s.heap.length) :
    children_of (create_state s last pd pinode fname kind) q = children_of s q := by
  simp only [children_of, inode_of, create_state_other s last pd pinode fname kind q hq hlt]

theorem create_state_find_child (s : nfs_state) (last : Nat) (pd : nfs_dentry)
    (pinode : nfs_inode) (fname : String) (kind : NFS_FILE_TYPE)
    (hget : s.heap[last]? = some pd) (c : String) (ps : List Nat)
    (hps : ∀ p ∈ ps, p < s.heap.length) :
    find_child (create_state s last pd pinode fname kind) c ps = find_child s c ps :=
  find_child_congr s _ c ps
    (fun p hp => create_state_name s last pd pinode fname kind hget p (hps p hp))

theorem create_state_child_names (s : nfs_state) (last : Nat) (pd : nfs_dentry)
    (pinode : nfs_inode) (fname : String) (kind : NFS_FILE_TYPE)
    (hget : s.heap[last]? = some pd) (ps : List Nat)
    (hps : ∀ p ∈ ps, p < s.heap.length) :
    child_names (create_state s last pd pinode fname kind) ps = child_names s ps :=
  child_names_congr s _ ps
    (fun p hp => create_state_name s last pd pinode fname kind hget p (hps p hp))

theorem create_state_walk (s : nfs_state) (hc : heap_closed s) (last : Nat) (pd : nfs_dentry)
    (pinode : nfs_inode) (fname : String) (kind : NFS_FILE_TYPE)
    (hget : s.heap[last]? = some pd) (hin : pd.inode = some pinode)
    (cs : List String) (cur d : Nat) (hw : lookup_walk s cur cs = (d, true)) :
    lookup_walk (create_state s last pd pinode fname kind) cur cs = (d, true) := by
  induction cs generalizing cur with
  | nil => simpa [lookup_walk] using hw
  | cons c rest ih =>
    simp only [lookup_walk] at hw ⊢
    cases hf : find_child s c (children_of s cur) with
    | none => rw [hf] at hw; simp at hw
    | some next =>
      rw [hf] at hw
      have hlt : ∀ p ∈ children_of s cur, p < s.heap.length := fun p hp => children_lt hc hp
      have hf1 : find_child (create_state s last pd pinode fname kind) c
          (children_of (create_state s last pd pinode fname kind) cur) = some next := by
        by_cases hcl : cur = last
        · subst hcl
          rw [create_state_children_parent s cur pd pinode fname kind hget hin,
            find_child_append, create_state_find_child s cur pd pinode fname kind hget c _ hlt, hf]
          rfl
        · have hcur : cur < s.heap.length := by
            cases hd : s.heap[cur]? with
            | none => rw [children_of_none hd] at hf; simp [find_child] at hf
            | some d0 => exact heap_lt_of_get hd
          rw [create_state_children_other s last pd pinode fname kind cur hcl hcur,
            create_state_find_child s last pd pinode fname kind hget c _ hlt, hf]
      rw [hf1]
      exact ih next hw

theorem create_state_finds_new (s : nfs_state) (hc : heap_closed s) (last : Nat)
    (pd : nfs_dentry) (pinode : nfs_inode) (fname : String) (kind : NFS_FILE_TYPE)
    (hget : s.heap[last]? = some pd) (hin : pd.inode = some pinode)
    (hnone : find_child s fname (children_of s last) = none) :
    find_child (create_state s last pd pinode fname kind) fname
      (children_of (create_state s last pd pinode fname kind) last) = some s.heap.length := by
  have hlt : ∀ p ∈ children_of s last, p < s.heap.length := fun p hp => children_lt hc hp
  rw [create_state_children_parent s last pd pinode fname kind hget hin, find_child_append,
    create_state_find_child s last pd pinode fname kind hget fname _ hlt, hnone]
  simp only [find_child, create_state_new s last pd pinode fname kind (heap_lt_of_get hget),
    created_dentry]
  simp

theorem create_state_sibling_names_unique (s : nfs_state) (hc : heap_closed s)
    (hu : sibling_names_unique s) (last : Nat) (pd : nfs_dentry) (pinode : nfs_inode)
    (fname : String) (kind : NFS_FILE_TYPE)
    (hget : s.heap[last]? = some pd) (hin : pd.inode = some pinode)
    (hname : fname ∉ child_names s (children_of s last)) :
    sibling_names_unique (create_state s last pd pinode fname kind) := by
  have hlast : last < s.heap.length := heap_lt_of_get hget
  have hpd : pd ∈ s.heap := List.getElem?_mem hget
  have hold : ∀ d ∈ s.heap,
      (child_names (create_state s last pd pinode fname kind) (dentry_children d)).Nodup := by
    intro d hd
    rw [create_state_child_names s last pd pinode fname kind hget _ (hc.2 d hd)]
    exact hu d hd
  intro d hd
  have hmem : d ∈ s.heap ++ [created_dentry fname kind last (first_clear s.super.map_inode)]
      ∨ d = parent_after pd pinode s.heap.length := List.mem_or_eq_of_mem_set hd
  rcases hmem with hmem | hmem
  · rcases List.mem_append.mp hmem with hmem | hmem
    · exact hold d hmem
    · rw [List.mem_singleton] at hmem
      subst hmem
      cases hfc : first_clear s.super.map_inode <;>
        simp [created_dentry, dentry_children, child_names]
  · subst hmem
    have hch : dentry_children (parent_after pd pinode s.heap.length)
        = children_of s last ++ [s.heap.length] := by
      rw [children_of_eq hget]
      simp only [dentry_children, parent_after, hin]
    rw [hch]
    have hsplit : child_names (create_state s last pd pinode fname kind)
        (children_of s last ++ [s.heap.length]) = child_names s (children_of s last) ++ [fname] := by
      have h1 := create_state_child_names s last pd pinode fname kind hget (children_of s last)
        (fun p hp => children_lt hc hp)
      simp only [child_names, List.filterMap_append] at h1 ⊢
      rw [h1]
      simp [create_state_new s last pd pinode fname kind hlast, created_dentry]
    rw [hsplit]
    have hnd : (child_names s (children_of s last)).Nodup := by
      rw [children_of_eq hget]
      exact hu pd hpd
    exact List.Nodup.append hnd (List.nodup_singleton fname)
      (by
        intro x hx hx1
        rw [List.mem_singleton] at hx1
        subst hx1
        exact hname hx)

theorem create_state_heap_closed (s : nfs_state) (hc : heap_closed s)
    (last : Nat) (pd : nfs_dentry) (pinode : nfs_inode)
    (fname : String) (kind : NFS_FILE_TYPE)
    (hget : s.heap[last]? = some pd) (hin : pd.inode = some pinode) :
    heap_closed (create_state s last pd pinode fname kind) := by
  have hpd : pd ∈ s.heap := List.getElem?_mem hget
  refine ⟨?_, ?_⟩
  · rw [create_state_length]
    exact Nat.lt_succ_of_lt hc.1
  intro d hd p hp
  rw [create_state_length]
  have hmem : d ∈ s.heap ++ [created_dentry fname kind last (first_clear s.super.map_inode)]
      ∨ d = parent_after pd pinode s.heap.length := List.mem_or_eq_of_mem_set hd
  rcases hmem with hmem | hmem
  · rcases List.mem_append.mp hmem with hmem | hmem
    · exact Nat.lt_succ_of_lt (hc.2 d hmem p hp)
    · rw [List.mem_singleton] at hmem
      subst hmem
      cases hfc : first_clear s.super.map_inode <;>
        simp [created_dentry, dentry_children, hfc] at hp
  · subst hmem
    simp only [dentry_children, parent_after, List.mem_append, List.mem_singleton] at hp
    rcases hp with hp | hp
    · have : p ∈ dentry_children pd := by simpa [dentry_children, hin] using hp
      exact Nat.lt_succ_of_lt (hc.2 pd hpd p this)
    · omega

end Newfs

namespace Newfs

/-! ## Lemmas on lookup -/

theorem lookup_components (path : String) (s : nfs_state) :
    path_components path ≠ [] →
      nfs_lookup path s =
        ((lookup_walk s s.super.root_dentry (path_components path)).1,
         (lookup_walk s s.super.root_dentry (path_components path)).2, false) := by
  intro h
  unfold nfs_lookup
  cases hc : path_components path with
  | nil => exact absurd hc h
  | cons c rest => rfl

theorem lookup_found_of_nil (path : String) (s : nfs_state) (h : path_components path = []) :
    (nfs_lookup path s).2.1 = true := by
  unfold nfs_lookup
  rw [h]

theorem lookup_create_state (path : String) (s : nfs_state) (last : Nat) (pd : nfs_dentry)
    (pinode : nfs_inode) (fname : String) (kind : NFS_FILE_TYPE) :
    nfs_lookup path (create_state s last pd pinode fname kind) =
      match path_components path with
      | [] => (s.super.root_dentry, true, true)
      | c :: rest =>
        ((lookup_walk (create_state s last pd pinode fname kind) s.super.root_dentry
            (c :: rest)).1,
         (lookup_walk (create_state s last pd pinode fname kind) s.super.root_dentry
            (c :: rest)).2, false) := by
  unfold nfs_lookup
  cases path_components path <;> rfl

/-- The last matched dentry of a not-found path whose components but the last all
resolve is the parent, and the final component names none of its children. -/
theorem lookup_parent_resolved (path : String) (s : nfs_state)
    (hnf : (nfs_lookup path s).2.1 = false)
    (hpar : (lookup_walk s s.super.root_dentry (path_components path).dropLast).2 = true) :
    path_components path = (path_components path).dropLast ++ [nfs_get_fname path] ∧
    (lookup_walk s s.super.root_dentry (path_components path).dropLast).1 = (nfs_lookup path s).1 ∧
    find_child s (nfs_get_fname path) (children_of s (nfs_lookup path s).1) = none := by
  have hne : path_components path ≠ [] := by
    intro h
    rw [lookup_found_of_nil path s h] at hnf
    cases hnf
  have hsplit : path_components path = (path_components path).dropLast ++ [nfs_get_fname path] := by
    have h1 := List.dropLast_append_getLast hne
    have h2 : nfs_get_fname path = (path_components path).getLast hne := by
      unfold nfs_get_fname
      rw [List.getLast?_eq_getLast _ hne]
      rfl
    rw [h2]
    exact h1.symm
  refine ⟨hsplit, ?_⟩
  rw [lookup_components path s hne] at hnf ⊢
  simp only at hnf ⊢
  generalize hcs : (path_components path).dropLast = cs at hsplit hpar
  rw [hsplit] at hnf ⊢
  rw [lookup_walk_append] at hnf ⊢
  rw [if_pos hpar] at hnf ⊢
  cases hf : find_child s (nfs_get_fname path) (children_of s (lookup_walk s s.super.root_dentry cs).1) with
  | none => simp [hf]
  | some n => rw [hf] at hnf; simp at hnf

end Newfs

namespace Newfs

/-! ## Claims on node creation -/

/-- C1: when lookup reports the path found, `newfs_mkdir` and `newfs_mknod` return
the already-exists error and leave the session unchanged (no dentry constructed,
no inode allocated, no child inserted).  In particular, when `newfs_mkdir` creates
a path (in a session without dangling pointers the path is not found, every
component but the last resolves, and the parent has a directory inode), it returns
0, lookup finds the path afterwards, and a second `newfs_mkdir` of the same path on
the resulting session returns the already-exists error and changes nothing. -/
theorem create_existing_path_fails (K : nfs_macros) (path : String) (mode dev : Nat)
    (s : nfs_state) :
    ((nfs_lookup path s).2.1 = true →
      newfs_mkdir K path mode s = some (-K.NFS_ERROR_EXISTS, s) ∧
      newfs_mknod K path mode dev s = some (-K.NFS_ERROR_EXISTS, s)) ∧
    (heap_closed s →
      (nfs_lookup path s).2.1 = false →
      (lookup_walk s s.super.root_dentry (path_components path).dropLast).2 = true →
      (∃ pinode, inode_of s (nfs_lookup path s).1 = some pinode ∧ NFS_IS_DIR pinode = true) →
      ∃ s1, newfs_mkdir K path mode s = some (NFS_ERROR_NONE, s1) ∧
        (nfs_lookup path s1).2.1 = true ∧
        newfs_mkdir K path mode s1 = some (-K.NFS_ERROR_EXISTS, s1)) := by
  have hfirst : ∀ t : nfs_state, (nfs_lookup path t).2.1 = true →
      newfs_mkdir K path mode t = some (-K.NFS_ERROR_EXISTS, t) ∧
      newfs_mknod K path mode dev t = some (-K.NFS_ERROR_EXISTS, t) := by
    intro t ht
    constructor
    · simp only [newfs_mkdir, ht, if_true]
    · simp only [newfs_mknod, ht, beq_self_eq_true, if_true]
  refine ⟨hfirst s, ?_⟩
  intro hc hnf hpar hdir
  rcases hdir with ⟨pinode, hio, hdir⟩
  rcases inode_of_some hio with ⟨pd, hget, hin⟩
  have hreg : NFS_IS_REG pinode = false := by
    unfold NFS_IS_DIR at hdir
    unfold NFS_IS_REG
    cases hft : pinode.ftype
    · rw [hft] at hdir; cases hdir
    · rfl
  rcases lookup_parent_resolved path s hnf hpar with ⟨hsplit, hlast, hnone⟩
  have hfound : (nfs_lookup path (create_state s (nfs_lookup path s).1 pd pinode
      (nfs_get_fname path) NFS_FILE_TYPE.NFS_DIR)).2.1 = true := by
    rw [lookup_create_state, hsplit]
    cases hcs : (path_components path).dropLast ++ [nfs_get_fname path] with
    | nil => rfl
    | cons c rest =>
      simp only
      rw [← hcs, lookup_walk_append]
      have hw : lookup_walk s s.super.root_dentry (path_components path).dropLast
          = ((nfs_lookup path s).1, true) := by
        rw [← hlast, ← hpar]
      rw [create_state_walk s hc _ pd pinode _ _ hget hin _ _ _ hw]
      simp only [if_true]
      rw [create_state_finds_new s hc _ pd pinode _ _ hget hin hnone]
  refine ⟨_, newfs_mkdir_create K path mode s pd pinode hnf hget hin hreg, hfound, ?_⟩
  exact (hfirst _ hfound).1

/-- C1 at concrete inputs: `mkdir("/")` on a fresh session, and `mkdir("/a")` twice
on a fresh session. -/
theorem create_existing_path_fails_witness :
    (newfs_mkdir errno_macros "/" 0 fresh_state = some (-17, fresh_state) ∧
      newfs_mknod errno_macros "/" 0 0 fresh_state = some (-17, fresh_state)) ∧
    (∃ s1, newfs_mkdir errno_macros "/a" 0 fresh_state = some (NFS_ERROR_NONE, s1) ∧
      (nfs_lookup "/a" s1).2.1 = true ∧
      newfs_mkdir errno_macros "/a" 0 s1 = some (-17, s1)) :=
  ⟨(create_existing_path_fails errno_macros "/" 0 0 fresh_state).1 (by decide),
   (create_existing_path_fails errno_macros "/a" 0 0 fresh_state).2 (by decide) (by decide)
     (by decide) ⟨_, rfl, rfl⟩⟩

end Newfs

namespace Newfs

theorem create_state_post (s : nfs_state) (last : Nat) (pd : nfs_dentry) (pinode : nfs_inode)
    (fname : String) (kind : NFS_FILE_TYPE) (hget : s.heap[last]? = some pd) :
    create_post s (create_state s last pd pinode fname kind) last pd pinode fname kind
      (first_clear s.super.map_inode) := by
  have hlt : last < s.heap.length := heap_lt_of_get hget
  refine ⟨create_state_length s last pd pinode fname kind, ?_, ?_, ?_, ?_, rfl⟩
  · exact create_state_new s last pd pinode fname kind hlt
  · exact create_state_parent s last pd pinode fname kind hlt
  · intro q hq hql
    exact create_state_other s last pd pinode fname kind q hq hql
  · simp only [create_state, bitmap_after]

theorem not_reg_of_dir {inode : nfs_inode} (h : NFS_IS_DIR inode = true) :
    NFS_IS_REG inode = false := by
  unfold NFS_IS_DIR at h
  unfold NFS_IS_REG
  cases hft : inode.ftype
  · rw [hft] at h; cases h
  · rfl

/-- The directory half of C2 on `newfs_mkdir`: under a regular file it returns the
error `NFS_ERROR_UNSUPPORTED` and changes nothing. -/
theorem newfs_mkdir_under_regular (K : nfs_macros) (path : String) (mode : Nat) (s : nfs_state)
    (pinode : nfs_inode) (hnf : (nfs_lookup path s).2.1 = false)
    (hio : inode_of s (nfs_lookup path s).1 = some pinode) (hreg : NFS_IS_REG pinode = true) :
    newfs_mkdir K path mode s = some (-K.NFS_ERROR_UNSUPPORTED, s) := by
  simp only [newfs_mkdir, hnf, hio, hreg]
  simp

/-- The file half of C2 on `newfs_mknod`, in general: under any last matched dentry
that has an inode, a regular file included, it returns 0 and appends the new
dentry to the child collection of that inode. -/
theorem newfs_mknod_under_any_parent (K : nfs_macros) (path : String) (mode dev : Nat)
    (s : nfs_state) (pd : nfs_dentry) (pinode : nfs_inode)
    (hnf : (nfs_lookup path s).2.1 = false)
    (hget : s.heap[(nfs_lookup path s).1]? = some pd) (hin : pd.inode = some pinode) :
    ∃ t, newfs_mknod K path mode dev s = some (NFS_ERROR_NONE, t) ∧
      children_of t (nfs_lookup path s).1 = pinode.dentrys ++ [s.heap.length] := by
  refine ⟨_, newfs_mknod_create K path mode dev s pd pinode hnf hget hin, ?_⟩
  rw [create_state_children_parent s _ pd pinode _ _ hget hin, children_of_eq hget]
  simp only [dentry_children, hin]

/-- C2 at the failing input: in a session whose root holds the regular file `f`,
lookup of `/f/g` is not found and stops at `f`, whose inode is REGULAR;
`newfs_mkdir` refuses and changes nothing, but `newfs_mknod` returns 0 and inserts
the new dentry `g` into the child collection of the regular file. -/
theorem mknod_under_regular_file :
    nfs_lookup "/f/g" state_with_file = (1, false, false) ∧
    (inode_of state_with_file 1).map NFS_IS_REG = some true ∧
    newfs_mkdir errno_macros "/f/g" S_IFDIR state_with_file
      = some (-errno_macros.NFS_ERROR_UNSUPPORTED, state_with_file) ∧
    ∃ t, newfs_mknod errno_macros "/f/g" S_IFREG 0 state_with_file = some (NFS_ERROR_NONE, t) ∧
      children_of t 1 = [2] ∧ child_names t (children_of t 1) = ["g"] ∧
      (inode_of t 1).map NFS_IS_REG = some true :=
  ⟨by decide, by decide, by decide, _, rfl, by decide, by decide, by decide⟩

end Newfs

namespace Newfs

theorem first_clear_spec (m : List Bool) (i : Nat) (h : first_clear m = some i) :
    m[i]? = some false := by
  induction m generalizing i with
  | nil => simp [first_clear] at h
  | cons b bs ih =>
    cases b with
    | false =>
      simp only [first_clear, Bool.false_eq_true, if_false, Option.some.injEq] at h
      subst h
      simp
    | true =>
      simp only [first_clear, if_true] at h
      cases hf : first_clear bs with
      | none => rw [hf] at h; simp at h
      | some j =>
        rw [hf] at h
        simp only [Option.map_some', Option.some.injEq] at h
        subst h
        simpa using ih j hf

theorem get_fname_last (path : String) (s : nfs_state) (hnf : (nfs_lookup path s).2.1 = false) :
    (path_components path).getLast? = some (nfs_get_fname path) := by
  have hne : path_components path ≠ [] := by
    intro h
    rw [lookup_found_of_nil path s h] at hnf
    cases hnf
  unfold nfs_get_fname
  rw [List.getLast?_eq_getLast _ hne]
  rfl

/-- C4: for a path that lookup does not find, whose last matched dentry has a
directory inode, a create whose inode allocation succeeds (the bitmap has a clear
bit, the first being `ino`) returns 0 and adds exactly one dentry: its name is the
final component of the path, its parent is the dentry lookup returned, it is
appended to the child collection of that parent's inode (whose child count grows by
one), and it is bound to the inode newly allocated with id `ino`, of size 0, with
no children, whose type is DIRECTORY for `newfs_mkdir` and for `newfs_mknod`
REGULAR for a regular-file mode, DIRECTORY for a directory mode and REGULAR for any
other mode.  Every other dentry is untouched. -/
theorem create_adds_one_dentry (K : nfs_macros) (path : String) (mode dev : Nat)
    (s : nfs_state) (pd : nfs_dentry) (pinode : nfs_inode) (ino : Nat)
    (hnf : (nfs_lookup path s).2.1 = false)
    (hget : s.heap[(nfs_lookup path s).1]? = some pd)
    (hin : pd.inode = some pinode)
    (hdir : NFS_IS_DIR pinode = true)
    (hfree : first_clear s.super.map_inode = some ino) :
    (∃ t, newfs_mkdir K path mode s = some (0, t) ∧
      create_post s t (nfs_lookup path s).1 pd pinode (nfs_get_fname path)
        NFS_FILE_TYPE.NFS_DIR (some ino)) ∧
    (∃ t, newfs_mknod K path mode dev s = some (0, t) ∧
      create_post s t (nfs_lookup path s).1 pd pinode (nfs_get_fname path)
        (mknod_kind mode) (some ino)) ∧
    (path_components path).getLast? = some (nfs_get_fname path) ∧
    s.super.map_inode[ino]? = some false ∧
    (S_ISREG mode = true → mknod_kind mode = NFS_FILE_TYPE.NFS_REG_FILE) ∧
    (S_ISREG mode = false → S_ISDIR mode = true → mknod_kind mode = NFS_FILE_TYPE.NFS_DIR) ∧
    (S_ISREG mode = false → S_ISDIR mode = false →
      mknod_kind mode = NFS_FILE_TYPE.NFS_REG_FILE) := by
  have hpost : ∀ kind, create_post s
      (create_state s (nfs_lookup path s).1 pd pinode (nfs_get_fname path) kind)
      (nfs_lookup path s).1 pd pinode (nfs_get_fname path) kind (some ino) := by
    intro kind
    rw [← hfree]
    exact create_state_post s _ pd pinode _ kind hget
  refine ⟨⟨_, newfs_mkdir_create K path mode s pd pinode hnf hget hin (not_reg_of_dir hdir),
    hpost _⟩, ⟨_, newfs_mknod_create K path mode dev s pd pinode hnf hget hin, hpost _⟩,
    get_fname_last path s hnf, first_clear_spec _ _ hfree, ?_, ?_, ?_⟩
  · intro h; simp only [mknod_kind, h, if_true]
  · intro h1 h2; simp [mknod_kind, h1, h2]
  · intro h1 h2; simp [mknod_kind, h1, h2]

/-- C4 at `mkdir("/a")` and `mknod("/a", S_IFREG)` on a fresh session, where inode
id 1 is the first free one. -/
theorem create_adds_one_dentry_witness :
    (∃ t, newfs_mkdir errno_macros "/a" S_IFREG fresh_state = some (0, t) ∧
      create_post fresh_state t 0 (dir_dentry "/" none 0 [])
        { ino := 0, ftype := NFS_FILE_TYPE.NFS_DIR, size := 0, dir_cnt := 0, dentrys := [],
          data_blks := [] } "a" NFS_FILE_TYPE.NFS_DIR (some 1)) ∧
    (∃ t, newfs_mknod errno_macros "/a" S_IFREG 0 fresh_state = some (0, t) ∧
      create_post fresh_state t 0 (dir_dentry "/" none 0 [])
        { ino := 0, ftype := NFS_FILE_TYPE.NFS_DIR, size := 0, dir_cnt := 0, dentrys := [],
          data_blks := [] } "a" NFS_FILE_TYPE.NFS_REG_FILE (some 1)) :=
  have h := create_adds_one_dentry errno_macros "/a" S_IFREG 0 fresh_state
    (dir_dentry "/" none 0 [])
    { ino := 0, ftype := NFS_FILE_TYPE.NFS_DIR, size := 0, dir_cnt := 0, dentrys := [],
      data_blks := [] } 1 (by decide) (by decide) rfl (by decide) (by decide)
  ⟨h.1, h.2.1⟩

/-- The behaviour behind C5, in general: when the bitmap has no clear bit and the
last matched dentry of a not-found path has an inode, `newfs_mknod` returns 0 and
the heap gains a dentry bound to no inode; so does `newfs_mkdir` when that inode is
not REGULAR. -/
theorem create_without_free_inode (K : nfs_macros) (path : String) (mode dev : Nat)
    (s : nfs_state) (pd : nfs_dentry) (pinode : nfs_inode)
    (hnf : (nfs_lookup path s).2.1 = false)
    (hget : s.heap[(nfs_lookup path s).1]? = some pd) (hin : pd.inode = some pinode)
    (hfull : first_clear s.super.map_inode = none) :
    (∃ t, newfs_mknod K path mode dev s = some (NFS_ERROR_NONE, t) ∧
      create_post s t (nfs_lookup path s).1 pd pinode (nfs_get_fname path) (mknod_kind mode)
        none) ∧
    (NFS_IS_REG pinode = false →
      ∃ t, newfs_mkdir K path mode s = some (NFS_ERROR_NONE, t) ∧
        create_post s t (nfs_lookup path s).1 pd pinode (nfs_get_fname path)
          NFS_FILE_TYPE.NFS_DIR none) := by
  have hpost : ∀ kind, create_post s
      (create_state s (nfs_lookup path s).1 pd pinode (nfs_get_fname path) kind)
      (nfs_lookup path s).1 pd pinode (nfs_get_fname path) kind none := by
    intro kind
    rw [← hfull]
    exact create_state_post s _ pd pinode _ kind hget
  refine ⟨⟨_, newfs_mknod_create K path mode dev s pd pinode hnf hget hin, hpost _⟩, ?_⟩
  intro hreg
  exact ⟨_, newfs_mkdir_create K path mode s pd pinode hnf hget hin hreg, hpost _⟩

/-- C5 at the failing input: in a session whose inode bitmap has no clear bit the
allocation fails, yet `newfs_mkdir("/a")` and `newfs_mknod("/a")` return 0, not a
no-space error, and the root gains the child `a`, a dentry bound to no inode. -/
theorem create_on_exhausted_bitmap :
    first_clear state_full_bitmap.super.map_inode = none ∧
    (nfs_alloc_inode 1 (new_dentry "a" NFS_FILE_TYPE.NFS_DIR state_full_bitmap).2).1 = none ∧
    (∃ t, newfs_mkdir errno_macros "/a" S_IFDIR state_full_bitmap = some (NFS_ERROR_NONE, t) ∧
      children_of t 0 = [1] ∧
      t.heap[1]? = some { fname := "a", ftype := NFS_FILE_TYPE.NFS_DIR, parent := some 0,
                          inode := none }) ∧
    (∃ t, newfs_mknod errno_macros "/a" S_IFREG 0 state_full_bitmap = some (NFS_ERROR_NONE, t) ∧
      children_of t 0 = [1] ∧
      t.heap[1]? = some { fname := "a", ftype := NFS_FILE_TYPE.NFS_REG_FILE, parent := some 0,
                          inode := none }) :=
  ⟨by decide, by decide, ⟨_, rfl, by decide, by decide⟩, ⟨_, rfl, by decide, by decide⟩⟩

theorem newfs_create_found (K : nfs_macros) (path : String) (mode dev : Nat) (s : nfs_state)
    (hf : (nfs_lookup path s).2.1 = true) :
    newfs_mkdir K path mode s = some (-K.NFS_ERROR_EXISTS, s) ∧
    newfs_mknod K path mode dev s = some (-K.NFS_ERROR_EXISTS, s) := by
  constructor
  · simp only [newfs_mkdir, hf, if_true]
  · simp only [newfs_mknod, hf, beq_self_eq_true, if_true]

theorem lookup_walk_lt (s : nfs_state) (cs : List String) (cur : Nat)
    (hcur : cur < s.heap.length) : (lookup_walk s cur cs).1 < s.heap.length := by
  induction cs generalizing cur with
  | nil => exact hcur
  | cons c rest ih =>
    simp only [lookup_walk]
    cases hf : find_child s c (children_of s cur) with
    | none => exact hcur
    | some next =>
      rcases find_child_some_get s c _ next hf with ⟨_, d, hd, _⟩
      exact ih next (heap_lt_of_get hd)

theorem lookup_lt (path : String) (s : nfs_state) (hc : heap_closed s) :
    (nfs_lookup path s).1 < s.heap.length := by
  unfold nfs_lookup
  cases path_components path with
  | nil => exact hc.1
  | cons c rest => exact lookup_walk_lt s (c :: rest) _ hc.1

theorem create_steps_null (s : nfs_state) (last : Nat) (fname : String) (kind : NFS_FILE_TYPE)
    (hlt : last < s.heap.length) (hio : inode_of s last = none) :
    nfs_alloc_dentry last (new_dentry fname kind s).1
      (nfs_alloc_inode (new_dentry fname kind s).1
        (set_parent (new_dentry fname kind s).1 last (new_dentry fname kind s).2)).2
      = none := by
  have hne : s.heap.length ≠ last := Ne.symm (Nat.ne_of_lt hlt)
  rcases List.getElem?_eq_some.mpr ⟨hlt, rfl⟩ with hget
  have hin : (s.heap[last]).inode = none := by
    simpa [inode_of, hget] using hio
  have hget1 : ∀ x : nfs_dentry, (s.heap ++ [x])[last]? = some s.heap[last] := by
    intro x
    rw [List.getElem?_append_left hlt]
    exact hget
  simp only [new_dentry, set_parent, List.getElem?_concat_length]
  simp only [nfs_alloc_inode]
  cases hfc : first_clear s.super.map_inode with
  | none =>
    simp only [nfs_alloc_dentry, set_concat_length, hget1, hin]
  | some ino =>
    simp only [nfs_alloc_dentry, set_concat_length, hget1, hin, List.getElem?_concat_length]

/-- C6, the claim refuted: in a session with unique sibling names whose root holds
`b` but no `a`, `newfs_mkdir("/a/b")` returns 0 and leaves the root with two
children named `b`. -/
theorem mkdir_duplicates_sibling_name :
    sibling_names_unique state_with_b ∧ heap_closed state_with_b ∧
    nfs_lookup "/a/b" state_with_b = (0, false, false) ∧
    ∃ t, newfs_mkdir errno_macros "/a/b" S_IFDIR state_with_b = some (NFS_ERROR_NONE, t) ∧
      child_names t (children_of t 0) = ["b", "b"] ∧ ¬ sibling_names_unique t :=
  ⟨by decide, by decide, by decide, _, rfl, by decide, by decide⟩

/-- C6 as amended: starting from a session without dangling child pointers in
which sibling names are unique, the session after any call of `newfs_mkdir` or
`newfs_mknod`, whatever it returns, still has unique sibling names in every child
collection (and no dangling child pointers), for every path except a not-found
path whose final component is already the name of a child of the last matched
dentry. -/
theorem create_keeps_sibling_names_unique (K : nfs_macros) (path : String) (mode dev : Nat)
    (s : nfs_state) (hc : heap_closed s) (hu : sibling_names_unique s)
    (hname : (nfs_lookup path s).2.1 = false →
      nfs_get_fname path ∉ child_names s (children_of s (nfs_lookup path s).1)) :
    (∀ r ∈ newfs_mkdir K path mode s, sibling_names_unique r.2 ∧ heap_closed r.2) ∧
    (∀ r ∈ newfs_mknod K path mode dev s, sibling_names_unique r.2 ∧ heap_closed r.2) := by
  cases hf : (nfs_lookup path s).2.1 with
  | true =>
    have h := (newfs_create_found K path mode dev s hf)
    constructor
    · intro r hr
      rw [h.1] at hr
      cases hr
      exact ⟨hu, hc⟩
    · intro r hr
      rw [h.2] at hr
      cases hr
      exact ⟨hu, hc⟩
  | false =>
    have hn := hname hf
    cases hio : inode_of s (nfs_lookup path s).1 with
    | none =>
      constructor
      · intro r hr
        simp [newfs_mkdir, hf, hio] at hr
      · intro r hr
        have hnone : nfs_alloc_dentry (nfs_lookup path s).1
            (new_dentry (nfs_get_fname path) (mknod_kind mode) s).1
            (nfs_alloc_inode (new_dentry (nfs_get_fname path) (mknod_kind mode) s).1
              (set_parent (new_dentry (nfs_get_fname path) (mknod_kind mode) s).1
                (nfs_lookup path s).1
                (new_dentry (nfs_get_fname path) (mknod_kind mode) s).2)).2 = none :=
          create_steps_null s _ _ _ (lookup_lt path s hc) hio
        simp [newfs_mknod, hf, hnone] at hr
    | some pinode =>
      rcases inode_of_some hio with ⟨pd, hget, hin⟩
      have hgood : ∀ kind,
          sibling_names_unique (create_state s (nfs_lookup path s).1 pd pinode
            (nfs_get_fname path) kind) ∧
          heap_closed (create_state s (nfs_lookup path s).1 pd pinode
            (nfs_get_fname path) kind) := fun kind =>
        ⟨create_state_sibling_names_unique s hc hu _ pd pinode _ kind hget hin hn,
         create_state_heap_closed s hc _ pd pinode _ kind hget hin⟩
      constructor
      · intro r hr
        cases hreg : NFS_IS_REG pinode with
        | true =>
          rw [newfs_mkdir_under_regular K path mode s pinode hf hio hreg] at hr
          cases hr
          exact ⟨hu, hc⟩
        | false =>
          rw [newfs_mkdir_create K path mode s pd pinode hf hget hin hreg] at hr
          cases hr
          exact hgood _
      · intro r hr
        rw [newfs_mknod_create K path mode dev s pd pinode hf hget hin] at hr
        cases hr
        exact hgood _

/-- When every component but the last of a not-found path resolves, the final
component names no child of the last matched dentry: the exception of C6 as
amended needs a missing intermediate component. -/
theorem final_component_fresh (path : String) (s : nfs_state)
    (hnf : (nfs_lookup path s).2.1 = false)
    (hpar : (lookup_walk s s.super.root_dentry (path_components path).dropLast).2 = true) :
    nfs_get_fname path ∉ child_names s (children_of s (nfs_lookup path s).1) :=
  (find_child_none_iff s _ _).mp (lookup_parent_resolved path s hnf hpar).2.2

/-- C6 as amended, at `mkdir("/b/c")` and `mknod("/b/c")` in a session whose root
holds the directory `b`: both calls return and keep sibling names unique. -/
theorem create_keeps_sibling_names_unique_witness :
    ((newfs_mkdir errno_macros "/b/c" S_IFDIR state_with_b).isSome = true ∧
      (newfs_mknod errno_macros "/b/c" S_IFREG 0 state_with_b).isSome = true) ∧
    (∀ r ∈ newfs_mkdir errno_macros "/b/c" S_IFDIR state_with_b,
      sibling_names_unique r.2 ∧ heap_closed r.2) ∧
    (∀ r ∈ newfs_mknod errno_macros "/b/c" S_IFDIR 0 state_with_b,
      sibling_names_unique r.2 ∧ heap_closed r.2) :=
  ⟨⟨by decide, by decide⟩,
   create_keeps_sibling_names_unique errno_macros "/b/c" S_IFDIR 0 state_with_b
     (by decide) (by decide) (by decide)⟩

end Newfs

namespace Newfs

/-! ## Claims on attribute query and directory listing -/

theorem mode_type_bits (t p : Nat) (ht : t &&& S_IFMT = t) (hp : p &&& S_IFMT = 0) :
    (t ||| p) &&& S_IFMT = t := by
  rw [Nat.and_comm, Nat.and_or_distrib_left, Nat.and_comm S_IFMT t, Nat.and_comm S_IFMT p, ht, hp]
  simp

theorem stat_type_dir (p : Nat) (hp : p &&& S_IFMT = 0) :
    stat_type (S_IFDIR ||| p) = some NFS_FILE_TYPE.NFS_DIR := by
  have h := mode_type_bits S_IFDIR p (by decide) hp
  simp only [stat_type, S_ISDIR, h, beq_self_eq_true, if_true]

theorem stat_type_reg (p : Nat) (hp : p &&& S_IFMT = 0) :
    stat_type (S_IFREG ||| p) = some NFS_FILE_TYPE.NFS_REG_FILE := by
  have h := mode_type_bits S_IFREG p (by decide) hp
  have h1 : (S_IFREG == S_IFDIR) = false := by decide
  simp only [stat_type, S_ISDIR, S_ISREG, h, h1, beq_self_eq_true, if_true]
  simp

/-- C7, the claim refuted: not every session gives `newfs_getattr` a result.  In
the session `newfs_mkdir("/a")` leaves when the bitmap has no clear bit, `/a` is
found but bound to no inode; `newfs_getattr` dereferences that NULL inode and
neither returns the not-found error nor reports attributes.  In a session whose
I/O size is 0 the root is found and `newfs_getattr` divides by zero for
`st_blocks`. -/
theorem getattr_without_result :
    newfs_mkdir errno_macros "/a" S_IFDIR state_full_bitmap
      = some (NFS_ERROR_NONE, state_unbound_child) ∧
    (nfs_lookup "/a" state_unbound_child).2.1 = true ∧
    inode_of state_unbound_child (nfs_lookup "/a" state_unbound_child).1 = none ∧
    newfs_getattr errno_macros sample_env "/a" zero_stat state_unbound_child = none ∧
    nfs_lookup "/" state_zero_io = (0, true, true) ∧
    NFS_IO_SZ state_zero_io = 0 ∧
    newfs_getattr errno_macros sample_env "/" zero_stat state_zero_io = none := by
  decide

/-- C7 as amended: `newfs_getattr` agrees with the reference definition
`getattr_spec` for every path and every session in which, when the path is found,
the resolved dentry has an inode and, for the root, the I/O size is not zero (the
permission constant carrying no file-type bits).  It returns the not-found error
and leaves `*nfs_stat` untouched exactly when lookup reports not found; otherwise
it returns 0 and the type, size and link count it writes are those of the
reference: DIRECTORY with size `dir_cnt × sizeof(struct nfs_dentry_d)` for a
non-root directory, REGULAR with the stored size for a non-root regular file, link
count 1 for every non-root entry, and size `sz_usage` with link count 2 for the
root. -/
theorem newfs_getattr_refines (K : nfs_macros) (env : nfs_env) (path : String)
    (nfs_stat : stat) (s : nfs_state) (inode : nfs_inode)
    (hperm : K.NFS_DEFAULT_PERM &&& S_IFMT = 0)
    (hino : (nfs_lookup path s).2.1 = true → inode_of s (nfs_lookup path s).1 = some inode)
    (hio : (nfs_lookup path s).2.2 = true → NFS_IO_SZ s ≠ 0) :
    ((nfs_lookup path s).2.1 = false ↔
      getattr_spec K.sizeof_nfs_dentry_d s.super.sz_usage (nfs_lookup path s).2.1
        (nfs_lookup path s).2.2 inode = none) ∧
    (getattr_spec K.sizeof_nfs_dentry_d s.super.sz_usage (nfs_lookup path s).2.1
        (nfs_lookup path s).2.2 inode = none →
      newfs_getattr K env path nfs_stat s = some (-K.NFS_ERROR_NOTFOUND, nfs_stat)) ∧
    (∀ a, getattr_spec K.sizeof_nfs_dentry_d s.super.sz_usage (nfs_lookup path s).2.1
        (nfs_lookup path s).2.2 inode = some a →
      ∃ st, newfs_getattr K env path nfs_stat s = some (0, st) ∧
        stat_type st.st_mode = some a.ftype ∧ st.st_size = a.size ∧
        st.st_nlink = a.nlink) := by
  cases hf : (nfs_lookup path s).2.1 with
  | false =>
    refine ⟨by simp [getattr_spec], ?_, ?_⟩
    · intro _
      simp [newfs_getattr, hf]
    · intro a ha
      simp [getattr_spec] at ha
  | true =>
    have hi := hino hf
    have hdir := stat_type_dir K.NFS_DEFAULT_PERM hperm
    have hreg := stat_type_reg K.NFS_DEFAULT_PERM hperm
    cases hr : (nfs_lookup path s).2.2 with
    | true =>
      have hz := hio hr
      refine ⟨by cases hft : inode.ftype <;> simp [getattr_spec, hft], ?_, ?_⟩
      · intro h
        simp [getattr_spec] at h
      · intro a ha
        simp only [getattr_spec, Bool.true_eq_false, if_false, if_true, Option.some.injEq] at ha
        subst ha
        cases hft : inode.ftype <;>
          simp [newfs_getattr, hf, hr, hi, hz, NFS_IS_DIR, NFS_IS_REG, hft, hdir, hreg,
            NFS_ERROR_NONE]
    | false =>
      refine ⟨by cases hft : inode.ftype <;> simp [getattr_spec, hft], ?_, ?_⟩
      · intro h
        cases hft : inode.ftype <;> simp [getattr_spec, hft] at h
      · intro a ha
        cases hft : inode.ftype <;>
          simp only [getattr_spec, hft, Bool.true_eq_false, Bool.false_eq_true, if_false,
            Option.some.injEq] at ha <;>
          subst ha <;>
          simp [newfs_getattr, hf, hr, hi, NFS_IS_DIR, NFS_IS_REG, hft, hdir, hreg,
            NFS_ERROR_NONE]

/-- C7 as amended, at `getattr("/f")` for a regular file of stored size 7, at the
root and at a missing path. -/
theorem newfs_getattr_refines_witness :
    (∃ st, newfs_getattr errno_macros sample_env "/f" zero_stat state_with_file = some (0, st) ∧
      stat_type st.st_mode = some NFS_FILE_TYPE.NFS_REG_FILE ∧ st.st_size = 7 ∧
      st.st_nlink = 1) ∧
    (∃ st, newfs_getattr errno_macros sample_env "/" zero_stat state_with_file = some (0, st) ∧
      stat_type st.st_mode = some NFS_FILE_TYPE.NFS_DIR ∧ st.st_size = 1024 ∧
      st.st_nlink = 2) ∧
    newfs_getattr errno_macros sample_env "/g" zero_stat state_with_file
      = some (-2, zero_stat) :=
  ⟨(newfs_getattr_refines errno_macros sample_env "/f" zero_stat state_with_file
      { ino := 1, ftype := NFS_FILE_TYPE.NFS_REG_FILE, size := 7, dir_cnt := 0, dentrys := [],
        data_blks := [] } (by decide) (fun _ => rfl) (by decide)).2.2 _ rfl,
   (newfs_getattr_refines errno_macros sample_env "/" zero_stat state_with_file
      { ino := 0, ftype := NFS_FILE_TYPE.NFS_DIR, size := 0, dir_cnt := 1, dentrys := [1],
        data_blks := [] } (by decide) (fun _ => rfl) (by decide)).2.2 _ rfl,
   (newfs_getattr_refines errno_macros sample_env "/g" zero_stat state_with_file
      { ino := 0, ftype := NFS_FILE_TYPE.NFS_DIR, size := 0, dir_cnt := 1, dentrys := [1],
        data_blks := [] } (by decide) (by decide) (by decide)).2.1 rfl⟩

theorem to_int32_of_lt (k : Nat) (hk : k < 2147483648) : to_int32 (k : Int) = (k : Int) := by
  unfold to_int32
  omega

theorem nfs_get_dentry_nat (inode : nfs_inode) (k : Nat) :
    nfs_get_dentry inode (k : Int) = inode.dentrys[k]? := by
  unfold nfs_get_dentry
  have h : ¬ ((k : Int) < 0) := by omega
  simp only [h, if_false, Int.toNat_ofNat]

theorem children_at (s : nfs_state) (ps : List Nat) (cs : List nfs_dentry)
    (h : ps.map (fun p => s.heap[p]?) = cs.map some) (k : Nat) :
    (∀ c, cs[k]? = some c → ∃ p, ps[k]? = some p ∧ s.heap[p]? = some c) ∧
    (cs.length ≤ k → ps[k]? = none) := by
  have hk : (ps.map (fun p => s.heap[p]?))[k]? = (cs.map some)[k]? := by rw [h]
  have hlen : ps.length = cs.length := by
    have := congrArg List.length h
    simpa using this
  simp only [List.getElem?_map] at hk
  constructor
  · intro c hc
    rw [hc] at hk
    cases hp : ps[k]? with
    | none => rw [hp] at hk; simp at hk
    | some p =>
      rw [hp] at hk
      simp only [Option.map_some', Option.some.injEq] at hk
      exact ⟨p, rfl, hk⟩
  · intro hle
    apply List.getElem?_eq_none
    omega

/-- C8, the claim refuted: `/a/b` has the two children `f0` and `f1`; at start
offset 4294967296, which is not below 2, `newfs_readdir` still emits an entry, the
name `f0` with next offset 4294967297, because the offset is narrowed to a 32-bit
`int` before it is used as a position. -/
theorem readdir_offset_narrowing :
    children_of state_listing (nfs_lookup "/a/b" state_listing).1 = [3, 4] ∧
    newfs_readdir errno_macros "/a/b" 4294967296 state_listing
      = some (0, some ("f0", 4294967297)) := by
  decide

/-- C8 as amended: for a path that resolves to a directory whose collection holds
the children `cs` in order, and every start offset `k` below 2^31: if `k` is a
position of the collection `newfs_readdir` emits exactly one entry, the name of the
child at position `k`, with next offset `k + 1`, and returns 0; if `k` is not below
the number of children it emits nothing and returns 0.  Hence, with at most 2^31
children, the calls at offsets 0 .. n-1 emit the names of the children in order,
each once.  If the path is not found it emits nothing and returns the not-found
error, at every offset. -/
theorem newfs_readdir_entry (K : nfs_macros) (path : String) (s : nfs_state)
    (inode : nfs_inode) (cs : List nfs_dentry) (k : Nat) (hk : k < 2147483648) :
    ((nfs_lookup path s).2.1 = true →
      inode_of s (nfs_lookup path s).1 = some inode →
      NFS_IS_DIR inode = true →
      inode.dentrys.map (fun p => s.heap[p]?) = cs.map some →
      (∀ c, cs[k]? = some c →
        newfs_readdir K path (k : Int) s = some (0, some (c.fname, (k : Int) + 1))) ∧
      (cs.length ≤ k → newfs_readdir K path (k : Int) s = some (0, none)) ∧
      (cs.length ≤ 2147483648 →
        (List.range cs.length).map (fun j : Nat => newfs_readdir K path (j : Int) s)
          = (List.range cs.length).map
              (fun j : Nat => some (0, (cs[j]?).map (fun c => (c.fname, (j : Int) + 1)))))) ∧
    ((nfs_lookup path s).2.1 = false →
      ∀ offset : Int, newfs_readdir K path offset s = some (-K.NFS_ERROR_NOTFOUND, none)) := by
  constructor
  · intro hf hio _ hcs
    have hpos : ∀ j : Nat, j < 2147483648 → ∀ c, cs[j]? = some c →
        newfs_readdir K path (j : Int) s = some (0, some (c.fname, (j : Int) + 1)) := by
      intro j hj c hc
      rcases (children_at s inode.dentrys cs hcs j).1 c hc with ⟨p, hp, hpc⟩
      unfold newfs_readdir
      rw [to_int32_of_lt j hj]
      simp only [hf, hio, nfs_get_dentry_nat, hp, hpc, if_true]
      rfl
    refine ⟨hpos k hk, ?_, ?_⟩
    · intro hle
      have hp := (children_at s inode.dentrys cs hcs k).2 hle
      unfold newfs_readdir
      rw [to_int32_of_lt k hk]
      simp only [hf, hio, nfs_get_dentry_nat, hp, if_true]
      rfl
    · intro hn
      apply List.map_congr_left
      intro j hj
      have hjn : j < cs.length := List.mem_range.mp hj
      rcases List.getElem?_eq_some.mpr ⟨hjn, rfl⟩ with hc
      rw [hpos j (by omega) _ hc, hc]
      rfl
  · intro hf offset
    simp [newfs_readdir, hf]

/-- C8 as amended, at `readdir("/a/b")` with offsets 0, 1 and 2, and at a missing
path. -/
theorem newfs_readdir_entry_witness :
    newfs_readdir errno_macros "/a/b" 0 state_listing = some (0, some ("f0", 1)) ∧
    newfs_readdir errno_macros "/a/b" 1 state_listing = some (0, some ("f1", 2)) ∧
    newfs_readdir errno_macros "/a/b" 2 state_listing = some (0, none) ∧
    newfs_readdir errno_macros "/a/c" 0 state_listing = some (-2, none) :=
  ⟨((newfs_readdir_entry errno_macros "/a/b" state_listing
      { ino := 2, ftype := NFS_FILE_TYPE.NFS_DIR, size := 0, dir_cnt := 2, dentrys := [3, 4],
        data_blks := [] } [reg_dentry "f0" (some 2) 3 0, reg_dentry "f1" (some 2) 4 0] 0
      (by decide)).1 (by decide) (by decide) (by decide) (by decide)).1 _ rfl,
   ((newfs_readdir_entry errno_macros "/a/b" state_listing
      { ino := 2, ftype := NFS_FILE_TYPE.NFS_DIR, size := 0, dir_cnt := 2, dentrys := [3, 4],
        data_blks := [] } [reg_dentry "f0" (some 2) 3 0, reg_dentry "f1" (some 2) 4 0] 1
      (by decide)).1 (by decide) (by decide) (by decide) (by decide)).1 _ rfl,
   ((newfs_readdir_entry errno_macros "/a/b" state_listing
      { ino := 2, ftype := NFS_FILE_TYPE.NFS_DIR, size := 0, dir_cnt := 2, dentrys := [3, 4],
        data_blks := [] } [reg_dentry "f0" (some 2) 3 0, reg_dentry "f1" (some 2) 4 0] 2
      (by decide)).1 (by decide) (by decide) (by decide) (by decide)).2.1 (by decide),
   (newfs_readdir_entry errno_macros "/a/c" state_listing
      { ino := 2, ftype := NFS_FILE_TYPE.NFS_DIR, size := 0, dir_cnt := 2, dentrys := [3, 4],
        data_blks := [] } [] 0 (by decide)).2 (by decide) 0⟩

end Newfs

namespace Demo

/-! ## Claim on the mount hook of the demo -/

/-- C9, the claim refuted: for a device that reports an I/O size of 2^30 bytes
both queries succeed and `demo_mount` returns success, but `2 * super.sz_io` does
not fit the `int` field: `sz_blks` is -2147483648, not twice the I/O size. -/
theorem demo_mount_block_size_overflow :
    (demo_mount huge_io_ddriver zero_super).1 = 0 ∧
    (demo_mount huge_io_ddriver zero_super).2.1.sz_io = 1073741824 ∧
    (demo_mount huge_io_ddriver zero_super).2.1.sz_blks = -2147483648 ∧
    (demo_mount huge_io_ddriver zero_super).2.1.sz_blks
      ≠ 2 * (demo_mount huge_io_ddriver zero_super).2.1.sz_io := by
  decide

/-- C9 as amended: if the I/O-size query fails, `demo_mount` returns the failure
value, its last driver call closes the handle it opened, and the disk-size query is
not issued; if the I/O-size query succeeds and the disk-size query fails it
returns the failure value and its last driver call closes the handle; if both
succeed it returns success without closing the handle, `sz_io` and `sz_disk` are
the values the device reported, and `sz_blks = 2 × sz_io` provided the I/O size
lies in [-2^30, 2^30), where the product fits the `int` field. -/
theorem demo_mount_geometry (dev : ddriver) (super : demo_super) :
    (dev.io_sz = none →
      (demo_mount dev super).1 = -1 ∧
      (demo_mount dev super).2.2.getLast? = some (ddriver_call.call_close dev.open_fd) ∧
      ∀ fd, ddriver_call.call_ioctl_size fd ∉ (demo_mount dev super).2.2) ∧
    (∀ io, dev.io_sz = some io → dev.disk_sz = none →
      (demo_mount dev super).1 = -1 ∧
      (demo_mount dev super).2.2.getLast? = some (ddriver_call.call_close dev.open_fd)) ∧
    (∀ io disk, dev.io_sz = some io → dev.disk_sz = some disk →
      (demo_mount dev super).1 = 0 ∧
      (∀ fd, ddriver_call.call_close fd ∉ (demo_mount dev super).2.2) ∧
      (demo_mount dev super).2.1.driver_fd = dev.open_fd ∧
      (demo_mount dev super).2.1.sz_io = io ∧
      (demo_mount dev super).2.1.sz_disk = disk ∧
      (-1073741824 ≤ io → io < 1073741824 → (demo_mount dev super).2.1.sz_blks = 2 * io)) := by
  refine ⟨?_, ?_, ?_⟩
  · intro h
    have hm : demo_mount dev super =
        (-1, { super with driver_fd := dev.open_fd },
          [ddriver_call.call_open, ddriver_call.call_ioctl_io_sz dev.open_fd,
           ddriver_call.call_close dev.open_fd]) := by
      simp only [demo_mount, h]
    rw [hm]
    refine ⟨rfl, rfl, ?_⟩
    intro fd hfd
    simp at hfd
  · intro io h1 h2
    have hm : demo_mount dev super =
        (-1, { super with driver_fd := dev.open_fd, sz_io := io },
          [ddriver_call.call_open, ddriver_call.call_ioctl_io_sz dev.open_fd,
           ddriver_call.call_ioctl_size dev.open_fd,
           ddriver_call.call_close dev.open_fd]) := by
      simp only [demo_mount, h1, h2]
    rw [hm]
    exact ⟨rfl, rfl⟩
  · intro io disk h1 h2
    have hm : demo_mount dev super =
        (0, { driver_fd := dev.open_fd, sz_io := io, sz_disk := disk,
              sz_blks := to_int32 (2 * io) },
          [ddriver_call.call_open, ddriver_call.call_ioctl_io_sz dev.open_fd,
           ddriver_call.call_ioctl_size dev.open_fd]) := by
      simp only [demo_mount, h1, h2]
    rw [hm]
    refine ⟨rfl, ?_, rfl, rfl, rfl, ?_⟩
    · intro fd hfd
      simp at hfd
    · intro hlo hhi
      show to_int32 (2 * io) = 2 * io
      unfold to_int32
      omega

/-- C9 as amended, at a device with I/O size 512, at one whose I/O-size query fails
and at one whose disk-size query fails. -/
theorem demo_mount_geometry_witness :
    ((demo_mount sample_ddriver zero_super).1 = 0 ∧
      (demo_mount sample_ddriver zero_super).2.1.sz_io = 512 ∧
      (demo_mount sample_ddriver zero_super).2.1.sz_disk = 2097152 ∧
      (demo_mount sample_ddriver zero_super).2.1.sz_blks = 2 * 512) ∧
    ((demo_mount { open_fd := 3, io_sz := none, disk_sz := some 2097152 } zero_super).1 = -1 ∧
      (demo_mount { open_fd := 3, io_sz := none, disk_sz := some 2097152 } zero_super).2.2
        = [ddriver_call.call_open, ddriver_call.call_ioctl_io_sz 3,
           ddriver_call.call_close 3]) ∧
    ((demo_mount { open_fd := 3, io_sz := some 512, disk_sz := none } zero_super).1 = -1 ∧
      (demo_mount { open_fd := 3, io_sz := some 512, disk_sz := none } zero_super).2.2
        = [ddriver_call.call_open, ddriver_call.call_ioctl_io_sz 3,
           ddriver_call.call_ioctl_size 3, ddriver_call.call_close 3]) :=
  have h := (demo_mount_geometry sample_ddriver zero_super).2.2 512 2097152 rfl rfl
  have h1 := (demo_mount_geometry { open_fd := 3, io_sz := none, disk_sz := some 2097152 }
    zero_super).1 rfl
  have h2 := (demo_mount_geometry { open_fd := 3, io_sz := some 512, disk_sz := none }
    zero_super).2.1 512 rfl rfl
  ⟨⟨h.1, h.2.2.2.1, h.2.2.2.2.1, h.2.2.2.2.2 (by decide) (by decide)⟩,
   ⟨h1.1, by decide⟩, ⟨h2.1, by decide⟩⟩

end Demo

namespace Newfs

/-! ## Claim on the unimplemented operations -/

/-- C10, the claim refuted: `newfs_write` and `newfs_read` answer a request of 5
bytes with the success value 5, and `newfs_unlink`, `newfs_rmdir`, `newfs_rename`,
`newfs_truncate`, `newfs_open`, `newfs_opendir` and `newfs_access` return 0. -/
theorem unimplemented_hooks_report_success :
    newfs_write "/f" "hello" 5 0 = 5 ∧ newfs_read "/f" "" 5 0 = 5 ∧
    newfs_unlink "/f" = 0 ∧ newfs_rmdir "/d" = 0 ∧ newfs_rename "/f" "/g" = 0 ∧
    newfs_truncate "/f" 0 = 0 ∧ newfs_open "/f" 0 = 0 ∧ newfs_opendir "/d" 0 = 0 ∧
    newfs_access "/f" 0 = 0 := by
  decide

/-- The int that `newfs_write` and `newfs_read` return for a size that does not
fit it: negative at 2^31 and at 2^64 - 1. -/
theorem write_read_large_size :
    newfs_write "/f" "data" 2147483648 0 = -2147483648 ∧
    newfs_read "/f" "data" 18446744073709551615 0 = -1 := by
  decide

/-- C10 as amended: for every input `newfs_unlink`, `newfs_rmdir`, `newfs_rename`,
`newfs_truncate`, `newfs_open`, `newfs_opendir` and `newfs_access` return the
success value 0, and `newfs_write` and `newfs_read` return the requested size
converted to the `int` result: the value in [-2^31, 2^31) congruent to the size
modulo 2^32, which is the size itself, a success value, whenever the size is below
2^31.  The table `operations` registers none of the nine: the slots `write`,
`read`, `truncate`, `unlink`, `rmdir`, `rename`, `open`, `opendir` and `access`
are NULL. -/
theorem unimplemented_hooks_succeed (path buf dst : String) (size fi : Nat)
    (offset type : Int) :
    (size < 2147483648 →
      newfs_write path buf size offset = (size : Int) ∧
      newfs_read path buf size offset = (size : Int)) ∧
    (-2147483648 ≤ newfs_write path buf size offset ∧
      newfs_write path buf size offset < 2147483648 ∧
      ((size : Int) - newfs_write path buf size offset) % 4294967296 = 0) ∧
    (-2147483648 ≤ newfs_read path buf size offset ∧
      newfs_read path buf size offset < 2147483648 ∧
      ((size : Int) - newfs_read path buf size offset) % 4294967296 = 0) ∧
    newfs_unlink path = 0 ∧ newfs_rmdir path = 0 ∧ newfs_rename path dst = 0 ∧
    newfs_truncate path offset = 0 ∧ newfs_open path fi = 0 ∧ newfs_opendir path fi = 0 ∧
    newfs_access path type = 0 ∧
    operations fuse_slot.slot_write = none ∧ operations fuse_slot.slot_read = none ∧
    operations fuse_slot.slot_truncate = none ∧ operations fuse_slot.slot_unlink = none ∧
    operations fuse_slot.slot_rmdir = none ∧ operations fuse_slot.slot_rename = none ∧
    operations fuse_slot.slot_open = none ∧ operations fuse_slot.slot_opendir = none ∧
    operations fuse_slot.slot_access = none := by
  have hrange : ∀ x : Int, -2147483648 ≤ to_int32 x ∧ to_int32 x < 2147483648 ∧
      (x - to_int32 x) % 4294967296 = 0 := by
    intro x
    unfold to_int32
    omega
  refine ⟨?_, hrange _, hrange _, rfl, rfl, rfl, rfl, rfl, rfl, rfl, rfl, rfl, rfl, rfl, rfl,
    rfl, rfl, rfl, rfl⟩
  intro h
  constructor
  · exact to_int32_of_lt size h
  · exact to_int32_of_lt size h

/-- C10 as amended, at a request of 4096 bytes. -/
theorem unimplemented_hooks_succeed_witness :
    newfs_write "/f" "data" 4096 0 = 4096 ∧ newfs_read "/f" "data" 4096 0 = 4096 :=
  (unimplemented_hooks_succeed "/f" "data" "/g" 4096 0 0 0).1 (by decide)

end Newfs
